import Mathlib

/-!
# Replication graph: routing, classification and per-connection gathering

A shallow embedding of `MyReplicationGraph.cpp` / `MyReplicationGraph.h`.
Engine containers (`TArray`, `TMap`, `FActorRepListRefView`) are rendered as
lists with the engine's operations written out; actors are identified by
their object pointer, rendered as a natural number.
-/

namespace ReplicationGraph

/-! ## Engine containers -/

/-- Actor reference (`FActorRepListType`, an `AActor*`). -/
abbrev FActorRepListType := Nat

/-- Engine name (`FName`), identified by its index in the name table. -/
abbrev FName := Nat

/-- The engine's `NAME_None` (index 0 of the name table). -/
def NAME_None : FName := 0

/-- Engine `TMap`: key/value pairs, the first pair of a key being its entry. -/
abbrev TMap (K V : Type) := List (K × V)

/-- The `TMap::Find` lookup: the value stored under the key, if any. -/
def TMap.Find {K V : Type} [DecidableEq K] : TMap K V → K → Option V
  | [], _ => none
  | (k, v) :: rest, key => if k = key then some v else TMap.Find rest key

/-- The `TMap::FindOrAdd` insertion: an absent key gets an entry holding the
default value; a present key leaves the map as it is. -/
def TMap.FindOrAdd {K V : Type} [DecidableEq K] (m : TMap K V) (key : K) (dflt : V) : TMap K V :=
  match TMap.Find m key with
  | some _ => m
  | none => m ++ [(key, dflt)]

/-- Update through the reference returned by `Find`/`FindOrAdd`: the entry of
the key is replaced by its image under `f`. -/
def TMap.Modify {K V : Type} [DecidableEq K] : TMap K V → K → (V → V) → TMap K V
  | [], _, _ => []
  | (k, v) :: rest, key, f =>
    if k = key then (k, f v) :: rest else (k, v) :: TMap.Modify rest key f

/-- The `TMap::Add` / `TMap::Emplace` store: replaces the value of a present
key, appends an entry for an absent one. -/
def TMap.Add {K V : Type} [DecidableEq K] (m : TMap K V) (key : K) (v : V) : TMap K V :=
  match TMap.Find m key with
  | some _ => TMap.Modify m key (fun _ => v)
  | none => m ++ [(key, v)]

/-- The `TArray::RemoveAtSwap(Idx, 1)` removal: the last element takes the
place of the removed one and the array shrinks by one. -/
def RemoveAtSwap {α : Type} (xs : List α) (Idx : Nat) : List α :=
  if Idx + 1 < xs.length then
    match xs.getLast? with
    | some lastElem => (xs.set Idx lastElem).dropLast
    | none => xs
  else if Idx + 1 = xs.length then xs.dropLast
  else xs

/-- The `TArray::RemoveSingleSwap` removal behind
`FActorRepListRefView::RemoveFast`: the first occurrence is removed by swap. -/
def RemoveFast (xs : List FActorRepListType) (a : FActorRepListType) : List FActorRepListType :=
  if a ∈ xs then RemoveAtSwap xs (xs.indexOf a) else xs

/-- The `TArray::RemoveSingle` removal behind
`FActorRepListRefView::RemoveSlow`: the first occurrence is removed, order kept. -/
def RemoveSlow (xs : List FActorRepListType) (a : FActorRepListType) : List FActorRepListType :=
  xs.erase a

/-! ## Per-connection node (`UDAReplicationGraphNode_AlwaysRelevant_ForConnection`) -/

/-- Per-connection actor record; only the flag read by the gather is kept.
A record created by `FindOrAdd` starts with the flag cleared. -/
structure FConnectionReplicationActorInfo where
  bDormantOnConnection : Bool
  deriving DecidableEq, Repr

/-- The per-connection map `FPerConnectionActorInfoMap`. -/
abbrev FPerConnectionActorInfoMap := TMap FActorRepListType FConnectionReplicationActorInfo

/-- Whether the connection holds the actor dormant: the flag of its record,
cleared when the actor has no record yet. -/
def dormantOnConnection (m : FPerConnectionActorInfoMap) (a : FActorRepListType) : Bool :=
  match TMap.Find m a with
  | some info => info.bDormantOnConnection
  | none => false

/-- The parameters of a gather: the connection's actor info map and the
lists gathered so far (those of the base class call included). -/
structure FConnectionGatherActorListParameters where
  ActorInfoMap : FPerConnectionActorInfoMap
  OutGatheredReplicationLists : List (List FActorRepListType)
  deriving DecidableEq, Repr

/-- The per-connection node: the streaming levels it tracks. -/
structure UDAReplicationGraphNode_AlwaysRelevant_ForConnection where
  AlwaysRelevantStreamingLevels : List FName
  deriving DecidableEq, Repr

/-- The inner loop of the gather (lines 335-344): walks the list until the
first actor that is not dormant on the connection, creating the record of
each actor it looks at. Returns `bAllDormant` and the updated map. -/
def allDormantLoop : List FActorRepListType → FPerConnectionActorInfoMap →
    Bool × FPerConnectionActorInfoMap
  | [], m => (true, m)
  | Actor :: rest, m =>
    let m1 := TMap.FindOrAdd m Actor ⟨false⟩
    if dormantOnConnection m1 Actor = false then (false, m1)
    else allDormantLoop rest m1

/-- The outer loop of the gather (lines 321-355); `n` is `Idx + 1`, so the
loop starts at `n = Num()` and stops at `n = 0`. -/
def gatherLoop (LevelActors : TMap FName (List FActorRepListType)) :
    Nat → List FName → FConnectionGatherActorListParameters →
    List FName × FConnectionGatherActorListParameters
  | 0, Levels, Params => (Levels, Params)
  | Idx + 1, Levels, Params =>
    match Levels[Idx]? with
    | none => (Levels, Params)
    | some StreamingLevel =>
      match TMap.Find LevelActors StreamingLevel with
      | none => gatherLoop LevelActors Idx (RemoveAtSwap Levels Idx) Params
      | some RepList =>
        if RepList.length > 0 then
          let r := allDormantLoop RepList Params.ActorInfoMap
          if r.1 = true then
            gatherLoop LevelActors Idx (RemoveAtSwap Levels Idx)
              { Params with ActorInfoMap := r.2 }
          else
            gatherLoop LevelActors Idx Levels
              { ActorInfoMap := r.2
                OutGatheredReplicationLists := Params.OutGatheredReplicationLists ++ [RepList] }
        else gatherLoop LevelActors Idx Levels Params

/-- The gather `GatherActorListsForConnection` of the per-connection node,
after the base class call has filled `Params`. -/
def GatherActorListsForConnection (LevelActors : TMap FName (List FActorRepListType))
    (Node : UDAReplicationGraphNode_AlwaysRelevant_ForConnection)
    (Params : FConnectionGatherActorListParameters) :
    UDAReplicationGraphNode_AlwaysRelevant_ForConnection × FConnectionGatherActorListParameters :=
  let r := gatherLoop LevelActors Node.AlwaysRelevantStreamingLevels.length
    Node.AlwaysRelevantStreamingLevels Params
  ({ AlwaysRelevantStreamingLevels := r.1 }, r.2)

/-- The visibility event `OnClientLevelVisibilityAdd`: appends the level. -/
def OnClientLevelVisibilityAdd (Node : UDAReplicationGraphNode_AlwaysRelevant_ForConnection)
    (LevelName : FName) : UDAReplicationGraphNode_AlwaysRelevant_ForConnection :=
  { AlwaysRelevantStreamingLevels := Node.AlwaysRelevantStreamingLevels ++ [LevelName] }

/-- The part of an array behind a removed index after `RemoveAtSwap`: the
last element comes first, the others keep their order. -/
def swapTail {α : Type} (post : List α) : List α :=
  match post.getLast? with
  | none => []
  | some e => e :: post.dropLast

/-- A tracked level survives its visit when its shared list exists and is
empty or holds an actor that is not dormant on the connection. -/
def KeptLevel (LevelActors : TMap FName (List FActorRepListType))
    (m : FPerConnectionActorInfoMap) (x : FName) : Prop :=
  ∃ l, TMap.Find LevelActors x = some l ∧
    (l = [] ∨ ∃ a ∈ l, dormantOnConnection m a = false)

/-- A list the gather emits: the shared list of a level, non-empty and with
an actor that is not dormant on the connection. -/
def EmittedList (LevelActors : TMap FName (List FActorRepListType))
    (m : FPerConnectionActorInfoMap) (Levels : List FName) (l : List FActorRepListType) : Prop :=
  (∃ z ∈ Levels, TMap.Find LevelActors z = some l) ∧ l ≠ [] ∧
    ∃ a ∈ l, dormantOnConnection m a = false

/-! ## Classes, default objects and the class-keyed map

Floating point values are kept abstract: `F` is the type of `float` values
and `FloatOps F` the operations the graph applies to them, so every result
below holds for whatever the arithmetic of the platform computes. -/

/-- The floating point operations used by the graph. -/
structure FloatOps (F : Type) where
  /-- The value `0.f` of a default-constructed field. -/
  Zero : F
  /-- The product `FMath::Square`. -/
  Square : F → F
  /-- The quotient `a / b`. -/
  Div : F → F → F
  /-- The rounding `FMath::RoundToFloat`. -/
  RoundToFloat : F → F
  /-- The conversion `(uint32)x`; reduced modulo `2 ^ 32` where it is used. -/
  ToUInt32 : F → Nat

/-- Conversion of a `float` to `uint32`. -/
def FloatOps.CastUInt32 {F : Type} (ops : FloatOps F) (x : F) : Nat :=
  ops.ToUInt32 x % 2 ^ 32

/-- The routing policies, in declaration order. -/
inductive EClassRepPolicy where
  | NotRouted
  | RelevantAllConnections
  | Spatialize_Static
  | Spatialize_Dynamic
  | Spatialize_Dormancy
  deriving DecidableEq, Repr

/-- The underlying `uint8` value of a policy. -/
def EClassRepPolicy.toUInt8 : EClassRepPolicy → Nat
  | .NotRouted => 0
  | .RelevantAllConnections => 1
  | .Spatialize_Static => 2
  | .Spatialize_Dynamic => 3
  | .Spatialize_Dormancy => 4

/-- The header's `IsSpatialized`: `Mapping >= Spatialize_Static`. -/
def IsSpatialized (Mapping : EClassRepPolicy) : Bool :=
  decide (Mapping.toUInt8 ≥ EClassRepPolicy.Spatialize_Static.toUInt8)

/-- The fields of an actor class default object the graph reads. -/
structure AActor (F : Type) where
  bReplicates : Bool
  bAlwaysRelevant : Bool
  bOnlyRelevantToOwner : Bool
  bNetUseOwnerRelevancy : Bool
  NetCullDistanceSquared : F
  NetUpdateFrequency : F
  deriving DecidableEq, Repr

/-- A reflected class. `root` is the one class without super class
(`UObject`), whose default object is no actor; every other class has a name,
a default object (`some` when `Cast<AActor>` succeeds) and its super class.
Two classes are the same object when they agree on all of these. -/
inductive UClass (F : Type) where
  | root (Name : String)
  | derived (Name : String) (DefaultObject : Option (AActor F)) (SuperClass : UClass F)
  deriving DecidableEq, Repr

/-- The name `Class->GetName()`. -/
def UClass.GetName {F : Type} : UClass F → String
  | .root Name => Name
  | .derived Name _ _ => Name

/-- The cast `Cast<AActor>(Class->GetDefaultObject())`. -/
def UClass.GetDefaultObject {F : Type} : UClass F → Option (AActor F)
  | .root _ => none
  | .derived _ DefaultObject _ => DefaultObject

/-- The parent `Class->GetSuperClass()`, `none` for a null pointer. -/
def UClass.GetSuperClass {F : Type} : UClass F → Option (UClass F)
  | .root _ => none
  | .derived _ _ SuperClass => some SuperClass

/-- The test `Class->IsChildOf(Base)`: the class or one of its ancestors is `Base`. -/
def UClass.IsChildOf {F : Type} [DecidableEq F] : UClass F → UClass F → Bool
  | .root Name, Base => decide (UClass.root Name = Base)
  | .derived Name DefaultObject SuperClass, Base =>
    if UClass.derived Name DefaultObject SuperClass = Base then true
    else SuperClass.IsChildOf Base

/-- The test `FString::StartsWith` with its default `ESearchCase::IgnoreCase`. -/
def StartsWith (s p : String) : Bool :=
  (p.toList.map Char.toLower).isPrefixOf (s.toList.map Char.toLower)

/-- The engine's `TClassMap`: a map keyed by class whose lookup uses the class
hierarchy (section 4.1, step 4: a class without rule of its own inherits the
outcome of its parent). -/
abbrev TClassMap (F V : Type) := TMap (UClass F) V

/-- The store `TClassMap::Set`. -/
def TClassMap.Set {F V : Type} [DecidableEq F] (m : TClassMap F V) (InClass : UClass F) (Value : V) :
    TClassMap F V :=
  TMap.Add m InClass Value

/-- The test `TClassMap::Contains(Class, bIncludeSuperClasses)`. -/
def TClassMap.Contains {F V : Type} [DecidableEq F] (m : TClassMap F V) :
    UClass F → Bool → Bool
  | Class, false => (TMap.Find m Class).isSome
  | .root Name, true => (TMap.Find m (.root Name)).isSome
  | .derived Name DefaultObject SuperClass, true =>
    if (TMap.Find m (.derived Name DefaultObject SuperClass)).isSome then true
    else TClassMap.Contains m SuperClass true

/-- The walk `TClassMap::GetClassInfoForNewClass_r`: the value of the nearest
ancestor of `Class` that has an entry is stored under `OriginalClass` and
returned; a chain without entry returns a null pointer. -/
def TClassMap.GetClassInfoForNewClass_r {F V : Type} [DecidableEq F] (m : TClassMap F V)
    (OriginalClass : UClass F) : UClass F → Option V × TClassMap F V
  | .root _ => (none, m)
  | .derived _ _ SuperClass =>
    match TMap.Find m SuperClass with
    | some v => (some v, TMap.Add m OriginalClass v)
    | none => TClassMap.GetClassInfoForNewClass_r m OriginalClass SuperClass

/-- The lookup `TClassMap::Get`: the entry of the class, else the walk up the
super classes. -/
def TClassMap.Get {F V : Type} [DecidableEq F] (m : TClassMap F V) (Class : UClass F) :
    Option V × TClassMap F V :=
  match TMap.Find m Class with
  | some v => (some v, m)
  | none => TClassMap.GetClassInfoForNewClass_r m Class Class

/-- The per-class replication settings; a default-constructed record has cull
distance `0.f` and period 1. The engine field `ReplicationPeriodFrame` is a
`uint16`: a value stored in it is below `2 ^ 16`. -/
structure FClassReplicationInfo (F : Type) where
  CullDistanceSquared : F
  ReplicationPeriodFrame : Nat
  deriving DecidableEq, Repr

/-- The narrowing of an assignment to the `uint16` field
`ReplicationPeriodFrame`: the `uint32` value is reduced modulo `2 ^ 16`. -/
def StorePeriodFrame (Value : Nat) : Nat :=
  Value % 2 ^ 16

/-- A default-constructed `FClassReplicationInfo`. -/
def FClassReplicationInfo.default {F : Type} (ops : FloatOps F) : FClassReplicationInfo F :=
  { CullDistanceSquared := ops.Zero, ReplicationPeriodFrame := 1 }

/-! ## Graph nodes and the graph -/

/-- The engine's list node `UReplicationGraphNode_ActorList`, for actors
without streaming level. -/
structure UReplicationGraphNode_ActorList where
  ReplicationActorList : List FActorRepListType
  deriving DecidableEq, Repr

/-- The add `NotifyAddNetworkActor` of the list node (level `NAME_None`). -/
def UReplicationGraphNode_ActorList.NotifyAddNetworkActor (Node : UReplicationGraphNode_ActorList)
    (Actor : FActorRepListType) : UReplicationGraphNode_ActorList :=
  { ReplicationActorList := Node.ReplicationActorList ++ [Actor] }

/-- The removal `NotifyRemoveNetworkActor` of the list node (level `NAME_None`). -/
def UReplicationGraphNode_ActorList.NotifyRemoveNetworkActor
    (Node : UReplicationGraphNode_ActorList) (Actor : FActorRepListType) :
    UReplicationGraphNode_ActorList :=
  { ReplicationActorList := RemoveSlow Node.ReplicationActorList Actor }

/-- Modelled from the spec: the grid node `UReplicationGraphNode_GridSpatialization2D`
is engine code outside the sources. Following section 4.2 it holds the
spatialized entities by kind (static, dynamic, dormant); only membership is
kept, cells and positions are not. -/
structure UReplicationGraphNode_GridSpatialization2D where
  StaticActors : List FActorRepListType
  DynamicActors : List FActorRepListType
  DormancyActors : List FActorRepListType
  deriving DecidableEq, Repr

/-- The global record of an actor handed to the grid on insertion
(`FGlobalActorReplicationInfo`); only the dormancy wish is kept. -/
structure FGlobalActorReplicationInfo where
  bWantsToBeDormant : Bool
  deriving DecidableEq, Repr

/-- Modelled from the spec: membership insertion of the grid (section 4.2,
`AddStatic/AddDynamic/AddDormant`); an entity is held once. -/
def gridInsert (xs : List FActorRepListType) (a : FActorRepListType) : List FActorRepListType :=
  if a ∈ xs then xs else xs ++ [a]

/-- Modelled from the spec: membership removal of the grid (section 4.2,
`RemoveStatic/Dynamic/Dormant`): the entity leaves the collection. -/
def gridRemove (xs : List FActorRepListType) (a : FActorRepListType) : List FActorRepListType :=
  xs.filter (fun b => decide (b ≠ a))

/-- Modelled from the spec: `AddStatic` of section 4.2. -/
def UReplicationGraphNode_GridSpatialization2D.AddActor_Static
    (Grid : UReplicationGraphNode_GridSpatialization2D) (Actor : FActorRepListType)
    (_GlobalInfo : FGlobalActorReplicationInfo) :
    UReplicationGraphNode_GridSpatialization2D :=
  { Grid with StaticActors := gridInsert Grid.StaticActors Actor }

/-- Modelled from the spec: `AddDynamic` of section 4.2. -/
def UReplicationGraphNode_GridSpatialization2D.AddActor_Dynamic
    (Grid : UReplicationGraphNode_GridSpatialization2D) (Actor : FActorRepListType)
    (_GlobalInfo : FGlobalActorReplicationInfo) :
    UReplicationGraphNode_GridSpatialization2D :=
  { Grid with DynamicActors := gridInsert Grid.DynamicActors Actor }

/-- Modelled from the spec: `AddDormant` of section 4.2. -/
def UReplicationGraphNode_GridSpatialization2D.AddActor_Dormancy
    (Grid : UReplicationGraphNode_GridSpatialization2D) (Actor : FActorRepListType)
    (_GlobalInfo : FGlobalActorReplicationInfo) :
    UReplicationGraphNode_GridSpatialization2D :=
  { Grid with DormancyActors := gridInsert Grid.DormancyActors Actor }

/-- Modelled from the spec: `RemoveStatic` of section 4.2. -/
def UReplicationGraphNode_GridSpatialization2D.RemoveActor_Static
    (Grid : UReplicationGraphNode_GridSpatialization2D) (Actor : FActorRepListType) :
    UReplicationGraphNode_GridSpatialization2D :=
  { Grid with StaticActors := gridRemove Grid.StaticActors Actor }

/-- Modelled from the spec: `RemoveDynamic` of section 4.2. -/
def UReplicationGraphNode_GridSpatialization2D.RemoveActor_Dynamic
    (Grid : UReplicationGraphNode_GridSpatialization2D) (Actor : FActorRepListType) :
    UReplicationGraphNode_GridSpatialization2D :=
  { Grid with DynamicActors := gridRemove Grid.DynamicActors Actor }

/-- Modelled from the spec: `RemoveDormant` of section 4.2. -/
def UReplicationGraphNode_GridSpatialization2D.RemoveActor_Dormancy
    (Grid : UReplicationGraphNode_GridSpatialization2D) (Actor : FActorRepListType) :
    UReplicationGraphNode_GridSpatialization2D :=
  { Grid with DormancyActors := gridRemove Grid.DormancyActors Actor }

/-- A node of a connection: the node of this repository or another one
(for which the cast in `ResetGameWorldState` gives a null pointer). -/
inductive UReplicationGraphNode where
  | AlwaysRelevant_ForConnection (Node : UDAReplicationGraphNode_AlwaysRelevant_ForConnection)
  | Other (Id : Nat)
  deriving DecidableEq, Repr

/-- A connection manager with its connection graph nodes. -/
structure UNetReplicationGraphConnection where
  ConnectionGraphNodes : List UReplicationGraphNode
  deriving DecidableEq, Repr

/-- The graph `UMyReplicationGraph`: the members the routing, the class
settings and the world reset read or write. -/
structure UMyReplicationGraph (F : Type) where
  ClassRepPolicies : TClassMap F EClassRepPolicy
  GlobalActorReplicationInfoMap : TClassMap F (FClassReplicationInfo F)
  NonSpatializedClasses : List (UClass F)
  GridNode : UReplicationGraphNode_GridSpatialization2D
  AlwaysRelevantNode : UReplicationGraphNode_ActorList
  AlwaysRelevantStreamingLevelActors : TMap FName (List FActorRepListType)
  Connections : List UNetReplicationGraphConnection
  PendingConnections : List UNetReplicationGraphConnection
  CullDistanceForDynamic : F
  CullDistanceForStatic : F
  CullDistanceForDormancy : F
  ActorReplicationPeriodForDynamic : F
  ActorReplicationPeriodForStatic : F
  ActorReplicationPeriodForDormancy : F
  deriving DecidableEq

/-- The classes the graph names through `StaticClass()`. -/
structure StaticClasses (F : Type) where
  AReplicationGraphDebugActor : UClass F
  AInfo : UClass F
  APawn : UClass F
  ADynamicRepActor : UClass F
  AStaticRepActor : UClass F
  ADormantRepActor : UClass F
  ARelevantAllConnectionsActor : UClass F

/-- The policy lookup `GetMappingPolicy`: both evaluations of
`ClassRepPolicies.Get` are kept; the second one cannot return a null pointer
after the first one did not. Returns the policy and the map as the lookups
leave it. -/
def GetMappingPolicy {F : Type} [DecidableEq F] (ClassRepPolicies : TClassMap F EClassRepPolicy)
    (InClass : UClass F) : EClassRepPolicy × TClassMap F EClassRepPolicy :=
  let r1 := TClassMap.Get ClassRepPolicies InClass
  match r1.1 with
  | some _ =>
    let r2 := TClassMap.Get r1.2 InClass
    (r2.1.getD EClassRepPolicy.NotRouted, r2.2)
  | none => (EClassRepPolicy.NotRouted, r1.2)

/-- The spawn notification `FNewReplicatedActorInfo`. -/
structure FNewReplicatedActorInfo (F : Type) where
  Actor : FActorRepListType
  Class : UClass F
  StreamingLevelName : FName

/-- The routing `RouteAddNetworkActorToNodes` (the log statement evaluates
`GetMappingPolicy` once more before the switch). -/
def RouteAddNetworkActorToNodes {F : Type} [DecidableEq F] (g : UMyReplicationGraph F)
    (ActorInfo : FNewReplicatedActorInfo F) (GlobalInfo : FGlobalActorReplicationInfo) :
    UMyReplicationGraph F :=
  let logged := GetMappingPolicy g.ClassRepPolicies ActorInfo.Class
  let r := GetMappingPolicy logged.2 ActorInfo.Class
  let g1 := { g with ClassRepPolicies := r.2 }
  match r.1 with
  | .RelevantAllConnections =>
    if ActorInfo.StreamingLevelName = NAME_None then
      { g1 with AlwaysRelevantNode := g1.AlwaysRelevantNode.NotifyAddNetworkActor ActorInfo.Actor }
    else
      let m := TMap.FindOrAdd g1.AlwaysRelevantStreamingLevelActors ActorInfo.StreamingLevelName []
      { g1 with AlwaysRelevantStreamingLevelActors :=
          TMap.Modify m ActorInfo.StreamingLevelName (fun RepList => RepList ++ [ActorInfo.Actor]) }
  | .Spatialize_Static => { g1 with GridNode := g1.GridNode.AddActor_Static ActorInfo.Actor GlobalInfo }
  | .Spatialize_Dynamic => { g1 with GridNode := g1.GridNode.AddActor_Dynamic ActorInfo.Actor GlobalInfo }
  | .Spatialize_Dormancy => { g1 with GridNode := g1.GridNode.AddActor_Dormancy ActorInfo.Actor GlobalInfo }
  | .NotRouted => g1

/-- The routing `RouteRemoveNetworkActorToNodes`. -/
def RouteRemoveNetworkActorToNodes {F : Type} [DecidableEq F] (g : UMyReplicationGraph F)
    (ActorInfo : FNewReplicatedActorInfo F) : UMyReplicationGraph F :=
  let r := GetMappingPolicy g.ClassRepPolicies ActorInfo.Class
  let g1 := { g with ClassRepPolicies := r.2 }
  match r.1 with
  | .RelevantAllConnections =>
    if ActorInfo.StreamingLevelName = NAME_None then
      { g1 with AlwaysRelevantNode :=
          g1.AlwaysRelevantNode.NotifyRemoveNetworkActor ActorInfo.Actor }
    else
      let m := TMap.FindOrAdd g1.AlwaysRelevantStreamingLevelActors ActorInfo.StreamingLevelName []
      { g1 with AlwaysRelevantStreamingLevelActors :=
          TMap.Modify m ActorInfo.StreamingLevelName (fun RepList => RemoveFast RepList ActorInfo.Actor) }
  | .Spatialize_Static => { g1 with GridNode := g1.GridNode.RemoveActor_Static ActorInfo.Actor }
  | .Spatialize_Dynamic => { g1 with GridNode := g1.GridNode.RemoveActor_Dynamic ActorInfo.Actor }
  | .Spatialize_Dormancy => { g1 with GridNode := g1.GridNode.RemoveActor_Dormancy ActorInfo.Actor }
  | .NotRouted => g1

/-- The policy the graph resolves for a class (the value of `GetMappingPolicy`). -/
def UMyReplicationGraph.PolicyOf {F : Type} [DecidableEq F] (g : UMyReplicationGraph F)
    (InClass : UClass F) : EClassRepPolicy :=
  (GetMappingPolicy g.ClassRepPolicies InClass).1

/-! ## Class settings (`InitGlobalActorClassSettings`) -/

/-- The lambda `ShouldSpatialize` (line 96). -/
def ShouldSpatialize {F : Type} (Actor : AActor F) : Bool :=
  Actor.bReplicates &&
    !(Actor.bAlwaysRelevant || Actor.bOnlyRelevantToOwner || Actor.bNetUseOwnerRelevancy)

/-- The comparison of lines 106-109: the four relevancy flags of the super
class default object equal those of the class default object. -/
def SameRelevancyFlags {F : Type} (SuperCDO ActorCDO : AActor F) : Bool :=
  (SuperCDO.bReplicates == ActorCDO.bReplicates) &&
  (SuperCDO.bAlwaysRelevant == ActorCDO.bAlwaysRelevant) &&
  (SuperCDO.bOnlyRelevantToOwner == ActorCDO.bOnlyRelevantToOwner) &&
  (SuperCDO.bNetUseOwnerRelevancy == ActorCDO.bNetUseOwnerRelevancy)

/-- The name test of line 76 for classes generated during Blueprint compilation. -/
def IsSyntheticName (ClassName : String) : Bool :=
  StartsWith ClassName "SKEL_" || StartsWith ClassName "REINST_"

/-- The explicit rules of lines 54-60, in source order. -/
def seedPolicies {F : Type} [DecidableEq F] (env : StaticClasses F)
    (m : TClassMap F EClassRepPolicy) : TClassMap F EClassRepPolicy :=
  let m1 := TClassMap.Set m env.AReplicationGraphDebugActor EClassRepPolicy.NotRouted
  let m2 := TClassMap.Set m1 env.AInfo EClassRepPolicy.RelevantAllConnections
  let m3 := TClassMap.Set m2 env.ADynamicRepActor EClassRepPolicy.Spatialize_Dynamic
  let m4 := TClassMap.Set m3 env.AStaticRepActor EClassRepPolicy.Spatialize_Static
  let m5 := TClassMap.Set m4 env.ADormantRepActor EClassRepPolicy.Spatialize_Dormancy
  TClassMap.Set m5 env.ARelevantAllConnectionsActor EClassRepPolicy.RelevantAllConnections

/-- The classes that receive an explicit rule. -/
def seededClasses {F : Type} (env : StaticClasses F) : List (UClass F) :=
  [env.AReplicationGraphDebugActor, env.AInfo, env.ADynamicRepActor, env.AStaticRepActor,
    env.ADormantRepActor, env.ARelevantAllConnectionsActor]

/-- The rule assignment of lines 120-127. -/
def assignRule {F : Type} [DecidableEq F] (g : UMyReplicationGraph F) (Class : UClass F)
    (ActorCDO : AActor F) : UMyReplicationGraph F :=
  if ShouldSpatialize ActorCDO = true then
    let m := TClassMap.Set g.ClassRepPolicies Class EClassRepPolicy.Spatialize_Dynamic
    { g with ClassRepPolicies := m }
  else if (ActorCDO.bAlwaysRelevant && !ActorCDO.bOnlyRelevantToOwner) = true then
    let m := TClassMap.Set g.ClassRepPolicies Class EClassRepPolicy.RelevantAllConnections
    { g with ClassRepPolicies := m }
  else g

/-- One iteration of the classification loop (lines 63-128) on the graph and
the local array `ReplicatedClasses`. -/
def classifyStep {F : Type} [DecidableEq F] (st : UMyReplicationGraph F × List (UClass F)) :
    UClass F → UMyReplicationGraph F × List (UClass F)
  | .root _ => st
  | .derived _ none _ => st
  | .derived Name (some ActorCDO) SuperClass =>
    if ActorCDO.bReplicates = false then st
    else if IsSyntheticName Name = true then st
    else
      let ReplicatedClasses := st.2 ++ [UClass.derived Name (some ActorCDO) SuperClass]
      if TClassMap.Contains st.1.ClassRepPolicies
          (UClass.derived Name (some ActorCDO) SuperClass) false = true then
        (st.1, ReplicatedClasses)
      else
        match SuperClass.GetDefaultObject with
        | some SuperCDO =>
          if SameRelevancyFlags SuperCDO ActorCDO = true then (st.1, ReplicatedClasses)
          else if ShouldSpatialize ActorCDO = false ∧ ShouldSpatialize SuperCDO = true then
            let Flagged := st.1.NonSpatializedClasses ++
              [UClass.derived Name (some ActorCDO) SuperClass]
            (assignRule { st.1 with NonSpatializedClasses := Flagged }
              (UClass.derived Name (some ActorCDO) SuperClass) ActorCDO, ReplicatedClasses)
          else
            (assignRule st.1 (UClass.derived Name (some ActorCDO) SuperClass) ActorCDO,
              ReplicatedClasses)
        | none =>
          (assignRule st.1 (UClass.derived Name (some ActorCDO) SuperClass) ActorCDO,
            ReplicatedClasses)

/-- The explicit settings `PawnClassInfo` (lines 139-140). -/
def PawnClassInfo {F : Type} (ops : FloatOps F) (g : UMyReplicationGraph F) :
    FClassReplicationInfo F :=
  { FClassReplicationInfo.default ops with
    CullDistanceSquared := ops.Square g.CullDistanceForDynamic }

/-- The explicit settings `DynamicRepActorInfo` (lines 143-145). -/
def DynamicRepActorInfo {F : Type} (ops : FloatOps F) (g : UMyReplicationGraph F) :
    FClassReplicationInfo F :=
  { CullDistanceSquared := ops.Square g.CullDistanceForDynamic
    ReplicationPeriodFrame :=
      StorePeriodFrame (max 1 (ops.CastUInt32 g.ActorReplicationPeriodForDynamic)) }

/-- The explicit settings `StaticInfo` (lines 148-150). -/
def StaticInfo {F : Type} (ops : FloatOps F) (g : UMyReplicationGraph F) :
    FClassReplicationInfo F :=
  { CullDistanceSquared := ops.Square g.CullDistanceForStatic
    ReplicationPeriodFrame :=
      StorePeriodFrame (max 1 (ops.CastUInt32 g.ActorReplicationPeriodForStatic)) }

/-- The explicit settings `DormantInfo` (lines 153-155). -/
def DormantInfo {F : Type} (ops : FloatOps F) (g : UMyReplicationGraph F) :
    FClassReplicationInfo F :=
  { CullDistanceSquared := ops.Square g.CullDistanceForDormancy
    ReplicationPeriodFrame :=
      StorePeriodFrame (max 1 (ops.CastUInt32 g.ActorReplicationPeriodForDormancy)) }

/-- The lambda `SetClassInfo` (lines 132-136): stores the settings and records
the class in the local array `ExplicitlySetClasses`. -/
def SetClassInfo {F : Type} [DecidableEq F] (st : UMyReplicationGraph F × List (UClass F))
    (InClass : UClass F) (RepInfo : FClassReplicationInfo F) :
    UMyReplicationGraph F × List (UClass F) :=
  let Infos := TClassMap.Set st.1.GlobalActorReplicationInfoMap InClass RepInfo
  ({ st.1 with GlobalActorReplicationInfoMap := Infos }, st.2 ++ [InClass])

/-- Lines 131-156: the pawn and dynamic settings go through the lambda, the
static and dormant settings are stored in the map directly. Returns the graph
and `ExplicitlySetClasses`. -/
def setExplicitInfos {F : Type} [DecidableEq F] (ops : FloatOps F) (env : StaticClasses F)
    (g : UMyReplicationGraph F) : UMyReplicationGraph F × List (UClass F) :=
  let st1 := SetClassInfo (g, []) env.APawn (PawnClassInfo ops g)
  let st2 := SetClassInfo st1 env.ADynamicRepActor (DynamicRepActorInfo ops g)
  let m3 := TClassMap.Set st2.1.GlobalActorReplicationInfoMap env.AStaticRepActor
    (StaticInfo ops g)
  let m4 := TClassMap.Set m3 env.ADormantRepActor (DormantInfo ops g)
  ({ st2.1 with GlobalActorReplicationInfoMap := m4 }, st2.2)

/-- The settings derivation `InitClassReplicationInfo`. -/
def InitClassReplicationInfo {F : Type} (ops : FloatOps F) (Info : FClassReplicationInfo F)
    (InClass : UClass F) (bSpatilize : Bool) (ServerMaxTickRate : F) : FClassReplicationInfo F :=
  match InClass.GetDefaultObject with
  | some CDO =>
    let Info1 :=
      if bSpatilize = true then { Info with CullDistanceSquared := CDO.NetCullDistanceSquared }
      else Info
    let Frames := ops.CastUInt32 (ops.RoundToFloat (ops.Div ServerMaxTickRate CDO.NetUpdateFrequency))
    { Info1 with ReplicationPeriodFrame := StorePeriodFrame (max Frames 1) }
  | none => Info

/-- One iteration of the default loop (lines 160-172); `none` is the failed
check of `ClassRepPolicies.GetChecked`. -/
def defaultInfoStep {F : Type} [DecidableEq F] (ops : FloatOps F)
    (ExplicitlySetClasses : List (UClass F)) (NetServerMaxTickRate : F)
    (acc : Option (UMyReplicationGraph F)) (ReplicatedClass : UClass F) :
    Option (UMyReplicationGraph F) :=
  match acc with
  | none => none
  | some g =>
    if ExplicitlySetClasses.any (fun InClass => ReplicatedClass.IsChildOf InClass) = true then
      some g
    else
      match TClassMap.Get g.ClassRepPolicies ReplicatedClass with
      | (none, _) => none
      | (some Policy, Policies) =>
        let ClassInfo := InitClassReplicationInfo ops (FClassReplicationInfo.default ops)
          ReplicatedClass (IsSpatialized Policy) NetServerMaxTickRate
        let Infos := TClassMap.Set g.GlobalActorReplicationInfoMap ReplicatedClass ClassInfo
        some { g with ClassRepPolicies := Policies, GlobalActorReplicationInfoMap := Infos }

/-- The class settings pass `InitGlobalActorClassSettings`, run on the graph
as the base class call leaves it; `AllClasses` is what `TObjectIterator<UClass>`
enumerates and `NetServerMaxTickRate` the tick rate of the net driver. -/
def InitGlobalActorClassSettings {F : Type} [DecidableEq F] (ops : FloatOps F)
    (env : StaticClasses F) (AllClasses : List (UClass F)) (NetServerMaxTickRate : F)
    (g : UMyReplicationGraph F) : Option (UMyReplicationGraph F) :=
  let g1 := { g with ClassRepPolicies := seedPolicies env g.ClassRepPolicies }
  let classified := AllClasses.foldl classifyStep (g1, [])
  let explicit := setExplicitInfos ops env classified.1
  classified.2.foldl (defaultInfoStep ops explicit.2 NetServerMaxTickRate) (some explicit.1)

/-- The value `TClassMap::Get` finds above a class: the entry of its nearest
proper ancestor that has one. -/
def TClassMap.ResolveAbove {F V : Type} [DecidableEq F] (m : TClassMap F V) :
    UClass F → Option V
  | .root _ => none
  | .derived _ _ SuperClass =>
    match TMap.Find m SuperClass with
    | some v => some v
    | none => TClassMap.ResolveAbove m SuperClass

/-- The value `TClassMap::Get` returns for a class: its entry, else the entry
of its nearest ancestor that has one. -/
def TClassMap.Resolve {F V : Type} [DecidableEq F] (m : TClassMap F V) (Class : UClass F) :
    Option V :=
  match TMap.Find m Class with
  | some v => some v
  | none => TClassMap.ResolveAbove m Class

/-- The rule that lines 120-127 assign from the flags of a default object,
`none` when they assign no rule. -/
def ruleFor {F : Type} (ActorCDO : AActor F) : Option EClassRepPolicy :=
  if ShouldSpatialize ActorCDO = true then some EClassRepPolicy.Spatialize_Dynamic
  else if (ActorCDO.bAlwaysRelevant && !ActorCDO.bOnlyRelevantToOwner) = true then
    some EClassRepPolicy.RelevantAllConnections
  else none

/-- Whether the classification loop goes on to the rule assignment for a
class: its super class has no actor default object, or one whose four
relevancy flags are not all equal to those of the class. -/
def DiffersFromSuper {F : Type} (ActorCDO : AActor F) (SuperClass : UClass F) : Bool :=
  match SuperClass.GetDefaultObject with
  | some SuperCDO => !SameRelevancyFlags SuperCDO ActorCDO
  | none => true

/-- Whether the super class of a class is an actor class whose default object
replicates. -/
def SuperClassReplicates {F : Type} (Class : UClass F) : Bool :=
  match Class.GetSuperClass with
  | some SuperClass =>
    match SuperClass.GetDefaultObject with
    | some SuperCDO => SuperCDO.bReplicates
    | none => false
  | none => false

/-! ## Predicates on the routing state -/

/-- Whether the actor is held by the structure that the policy of its class
and its streaming level select. -/
def PresentWhereRouted {F : Type} [DecidableEq F] (g : UMyReplicationGraph F)
    (ActorInfo : FNewReplicatedActorInfo F) : Bool :=
  match g.PolicyOf ActorInfo.Class with
  | .RelevantAllConnections =>
    if ActorInfo.StreamingLevelName = NAME_None then
      decide (ActorInfo.Actor ∈ g.AlwaysRelevantNode.ReplicationActorList)
    else
      decide (ActorInfo.Actor ∈
        (TMap.Find g.AlwaysRelevantStreamingLevelActors ActorInfo.StreamingLevelName).getD [])
  | .Spatialize_Static => decide (ActorInfo.Actor ∈ g.GridNode.StaticActors)
  | .Spatialize_Dynamic => decide (ActorInfo.Actor ∈ g.GridNode.DynamicActors)
  | .Spatialize_Dormancy => decide (ActorInfo.Actor ∈ g.GridNode.DormancyActors)
  | .NotRouted => false

/-- Whether the list that the policy of the actor's class and its streaming
level select holds the actor at most once (no condition for the grid and for
`NotRouted`). -/
def AtMostOnceWhereRouted {F : Type} [DecidableEq F] (g : UMyReplicationGraph F)
    (ActorInfo : FNewReplicatedActorInfo F) : Bool :=
  match g.PolicyOf ActorInfo.Class with
  | .RelevantAllConnections =>
    if ActorInfo.StreamingLevelName = NAME_None then
      decide (g.AlwaysRelevantNode.ReplicationActorList.count ActorInfo.Actor ≤ 1)
    else
      decide (((TMap.Find g.AlwaysRelevantStreamingLevelActors
        ActorInfo.StreamingLevelName).getD []).count ActorInfo.Actor ≤ 1)
  | _ => true

/-- The shared level map after a removal or an add-remove pair that found the
actor absent: the map itself, with an empty list for the level when a
`RelevantAllConnections` actor names a level that had no entry. -/
def LevelMapTouched {F : Type} [DecidableEq F] (g : UMyReplicationGraph F)
    (ActorInfo : FNewReplicatedActorInfo F) : TMap FName (List FActorRepListType) :=
  if g.PolicyOf ActorInfo.Class = EClassRepPolicy.RelevantAllConnections ∧
      ActorInfo.StreamingLevelName ≠ NAME_None ∧
      TMap.Find g.AlwaysRelevantStreamingLevelActors ActorInfo.StreamingLevelName = none then
    g.AlwaysRelevantStreamingLevelActors ++ [(ActorInfo.StreamingLevelName, [])]
  else g.AlwaysRelevantStreamingLevelActors

/-! ## Sample data for the concrete evaluations -/

/-- Sample `float` values: the non-negative fraction `Num / Den`, computed
exactly; a zero denominator stands for a non-finite value (infinity when
`Num > 0`, NaN when `Num = 0`). -/
structure ExactFloat where
  Num : Nat
  Den : Nat
  deriving DecidableEq, Repr

/-- Sample arithmetic on `ExactFloat`: exact quotient and product, rounding
`floor (x + 1/2)`, and a conversion to `uint32` that truncates, saturates
above the range and at infinity, and sends NaN to 0. -/
def exactOps : FloatOps ExactFloat :=
  { Zero := ⟨0, 1⟩
    Square := fun x => ⟨x.Num * x.Num, x.Den * x.Den⟩
    Div := fun a b => ⟨a.Num * b.Den, a.Den * b.Num⟩
    RoundToFloat := fun x => if x.Den = 0 then x else ⟨(2 * x.Num + x.Den) / (2 * x.Den), 1⟩
    ToUInt32 := fun x =>
      if x.Den = 0 then (if x.Num = 0 then 0 else 2 ^ 32 - 1)
      else min (x.Num / x.Den) (2 ^ 32 - 1) }

/-- The root class `UObject`. -/
def sampleObject : UClass ExactFloat := .root "Object"

/-- The base actor class, not replicated. -/
def sampleActor : UClass ExactFloat :=
  .derived "Actor" (some ⟨false, false, false, false, ⟨225000000, 1⟩, ⟨100, 1⟩⟩) sampleObject

/-- A replicated, always relevant class deriving from the base actor class. -/
def sampleRelevantAll : UClass ExactFloat :=
  .derived "RelevantAllConnectionsActor"
    (some ⟨true, true, false, false, ⟨225000000, 1⟩, ⟨100, 1⟩⟩) sampleActor

/-- An empty graph whose policy map routes `sampleRelevantAll` to all connections. -/
def sampleGraph : UMyReplicationGraph ExactFloat :=
  { ClassRepPolicies := [(sampleRelevantAll, EClassRepPolicy.RelevantAllConnections)]
    GlobalActorReplicationInfoMap := []
    NonSpatializedClasses := []
    GridNode := ⟨[], [], []⟩
    AlwaysRelevantNode := ⟨[]⟩
    AlwaysRelevantStreamingLevelActors := []
    Connections := []
    PendingConnections := []
    CullDistanceForDynamic := ⟨5000, 1⟩
    CullDistanceForStatic := ⟨4000, 1⟩
    CullDistanceForDormancy := ⟨3000, 1⟩
    ActorReplicationPeriodForDynamic := ⟨2, 1⟩
    ActorReplicationPeriodForStatic := ⟨5, 1⟩
    ActorReplicationPeriodForDormancy := ⟨4, 1⟩ }

/-- A spawn notification for actor 7 of class `sampleRelevantAll` in level 5. -/
def sampleLevelActor : FNewReplicatedActorInfo ExactFloat :=
  { Actor := 7, Class := sampleRelevantAll, StreamingLevelName := 5 }

/-- The sample graph with actor 7 listed twice in the shared list of level 5. -/
def sampleGraphListedTwice : UMyReplicationGraph ExactFloat :=
  { sampleGraph with AlwaysRelevantStreamingLevelActors := [(5, [7, 7])] }

/-- The sample graph with actors 7 and 3 in the shared list of level 5. -/
def sampleGraphListed : UMyReplicationGraph ExactFloat :=
  { sampleGraph with AlwaysRelevantStreamingLevelActors := [(5, [7, 3])] }

/-- A newly constructed graph: no policy, no class settings, no actor. -/
def sampleFreshGraph : UMyReplicationGraph ExactFloat :=
  { sampleGraph with ClassRepPolicies := [] }

/-- A replicated class with default flags and update rate 10, deriving from
the base actor class. -/
def sampleReplicated (Name : String) : UClass ExactFloat :=
  .derived Name (some ⟨true, false, false, false, ⟨225000000, 1⟩, ⟨10, 1⟩⟩) sampleActor

/-- The classes named through `StaticClass()`, all deriving from the base
actor class; `AInfo` is not replicated, the others are. -/
def sampleEnv : StaticClasses ExactFloat :=
  { AReplicationGraphDebugActor := sampleReplicated "ReplicationGraphDebugActor"
    AInfo := .derived "Info" (some ⟨false, false, false, false, ⟨225000000, 1⟩, ⟨10, 1⟩⟩)
      sampleActor
    APawn := sampleReplicated "Pawn"
    ADynamicRepActor := sampleReplicated "DynamicRepActor"
    AStaticRepActor := sampleReplicated "StaticRepActor"
    ADormantRepActor := sampleReplicated "DormantRepActor"
    ARelevantAllConnectionsActor := sampleRelevantAll }

/-- The classes enumerated in the sample runs. -/
def sampleClasses : List (UClass ExactFloat) :=
  [sampleObject, sampleActor, sampleEnv.AInfo, sampleEnv.APawn, sampleEnv.ADynamicRepActor,
    sampleEnv.AStaticRepActor, sampleEnv.ADormantRepActor, sampleRelevantAll]

/-- A replicated class deriving from the base actor class: relevance by position. -/
def sampleProjectile : UClass ExactFloat := sampleReplicated "Projectile"

/-- A replicated class relevant to its owner only, deriving from `sampleProjectile`. -/
def sampleOwnerOnly : UClass ExactFloat :=
  .derived "OwnedProjectile" (some ⟨true, false, true, false, ⟨225000000, 1⟩, ⟨10, 1⟩⟩)
    sampleProjectile

/-- A replicated class deriving from `sampleProjectile` with the same flags. -/
def sampleFastProjectile : UClass ExactFloat :=
  .derived "FastProjectile" (some ⟨true, false, false, false, ⟨225000000, 1⟩, ⟨20, 1⟩⟩)
    sampleProjectile

/-- A replicated class whose declared update rate is zero. -/
def sampleZeroRate : UClass ExactFloat :=
  .derived "ZeroRateActor" (some ⟨true, false, false, false, ⟨225000000, 1⟩, ⟨0, 1⟩⟩) sampleActor

/-- A replicated class relevant to its owner only, deriving from the base
actor class, which is not replicated and has no rule. -/
def sampleOwnerOnlyRoot : UClass ExactFloat :=
  .derived "OwnerOnlyActor" (some ⟨true, false, true, false, ⟨225000000, 1⟩, ⟨10, 1⟩⟩)
    sampleActor

/-- The sample graph with actor 7 alone in the shared list of level 5. -/
def sampleGraphSingle : UMyReplicationGraph ExactFloat :=
  { sampleGraph with AlwaysRelevantStreamingLevelActors := [(5, [7])] }

/-- The sample graph with two connections, one active and one pending, whose
nodes track levels, and a shared list for level 5. -/
def sampleGraphConnected : UMyReplicationGraph ExactFloat :=
  { sampleGraph with
    AlwaysRelevantStreamingLevelActors := [(5, [7])]
    Connections := [⟨[.Other 1, .AlwaysRelevant_ForConnection ⟨[5, 6]⟩]⟩]
    PendingConnections := [⟨[.AlwaysRelevant_ForConnection ⟨[5]⟩]⟩] }

/-- A replicated class whose declared update rate is `30 / 65536` per second. -/
def sampleSlowRate : UClass ExactFloat :=
  .derived "SlowRateActor" (some ⟨true, false, false, false, ⟨225000000, 1⟩, ⟨30, 65536⟩⟩)
    sampleActor

/-- The fresh sample graph with the dynamic period configured as 65536. -/
def sampleGraphLongPeriod : UMyReplicationGraph ExactFloat :=
  { sampleFreshGraph with ActorReplicationPeriodForDynamic := ⟨65536, 1⟩ }

/-! ## World reset -/

/-- The node reset `UDAReplicationGraphNode_AlwaysRelevant_ForConnection::ResetGameWorldState`. -/
def UDAReplicationGraphNode_AlwaysRelevant_ForConnection.ResetGameWorldState
    (_Node : UDAReplicationGraphNode_AlwaysRelevant_ForConnection) :
    UDAReplicationGraphNode_AlwaysRelevant_ForConnection :=
  { AlwaysRelevantStreamingLevels := [] }

/-- The body of the innermost loop of the graph reset (lines 29-33): a node
for which the cast succeeds is reset, any other node is left alone. -/
def resetConnectionNode : UReplicationGraphNode → UReplicationGraphNode
  | .AlwaysRelevant_ForConnection Node => .AlwaysRelevant_ForConnection Node.ResetGameWorldState
  | .Other Id => .Other Id

/-- The loop over the nodes of one connection (lines 27-34). -/
def resetConnection (Connection : UNetReplicationGraphConnection) :
    UNetReplicationGraphConnection :=
  { ConnectionGraphNodes := Connection.ConnectionGraphNodes.map resetConnectionNode }

/-- The graph reset `UMyReplicationGraph::ResetGameWorldState`; `Super` is what
the base class call does to the members of the graph. -/
def UMyReplicationGraph.ResetGameWorldState {F : Type}
    (Super : UMyReplicationGraph F → UMyReplicationGraph F) (g : UMyReplicationGraph F) :
    UMyReplicationGraph F :=
  let g1 := Super g
  { g1 with
    AlwaysRelevantStreamingLevelActors := []
    Connections := g1.Connections.map resetConnection
    PendingConnections := g1.PendingConnections.map resetConnection }
/-! ## Lemmas on the containers -/

theorem Find_append_absent {K V : Type} [DecidableEq K] (m : TMap K V) (k key : K) (v : V) :
    TMap.Find (m ++ [(k, v)]) key =
      match TMap.Find m key with
      | some w => some w
      | none => if k = key then some v else none := by
  induction m with
  | nil => simp [TMap.Find]
  | cons p rest ih =>
    obtain ⟨k1, v1⟩ := p
    by_cases h : k1 = key
    · simp [TMap.Find, h]
    · simpa [TMap.Find, h] using ih

theorem dormant_FindOrAdd (m : FPerConnectionActorInfoMap) (a b : FActorRepListType) :
    dormantOnConnection (TMap.FindOrAdd m a ⟨false⟩) b = dormantOnConnection m b := by
  unfold TMap.FindOrAdd
  cases ha : TMap.Find m a with
  | some w => rfl
  | none =>
    simp only [dormantOnConnection, Find_append_absent]
    cases hb : TMap.Find m b with
    | some w => rfl
    | none =>
      by_cases hab : a = b
      · simp [hab]
      · simp [hab]

theorem allDormantLoop_dormant (l : List FActorRepListType) (m : FPerConnectionActorInfoMap)
    (b : FActorRepListType) :
    dormantOnConnection (allDormantLoop l m).2 b = dormantOnConnection m b := by
  induction l generalizing m with
  | nil => rfl
  | cons a rest ih =>
    simp only [allDormantLoop]
    split
    · exact dormant_FindOrAdd m a b
    · rw [ih]; exact dormant_FindOrAdd m a b

theorem allDormantLoop_true (l : List FActorRepListType) (m : FPerConnectionActorInfoMap) :
    (allDormantLoop l m).1 = true ↔ ∀ a ∈ l, dormantOnConnection m a = true := by
  induction l generalizing m with
  | nil => simp [allDormantLoop]
  | cons a rest ih =>
    simp only [allDormantLoop, List.mem_cons, forall_eq_or_imp]
    split
    · rename_i h
      rw [dormant_FindOrAdd] at h
      simp [h]
    · rename_i h
      rw [dormant_FindOrAdd] at h
      rw [ih]
      simp only [Bool.not_eq_false] at h
      simp only [h, true_and]
      constructor
      · intro H x hx; rw [← dormant_FindOrAdd m a x]; exact H x hx
      · intro H x hx; rw [dormant_FindOrAdd m a x]; exact H x hx

theorem RemoveAtSwap_append {α : Type} (pre post : List α) (x : α) :
    RemoveAtSwap (pre ++ x :: post) pre.length = pre ++ swapTail post := by
  unfold RemoveAtSwap swapTail
  cases post with
  | nil => simp [List.dropLast_concat]
  | cons y ys =>
    have h1 : pre.length + 1 < (pre ++ x :: y :: ys).length := by simp
    rw [if_pos h1]
    have h2 : (pre ++ x :: y :: ys).getLast? = (y :: ys).getLast? := by
      rw [List.getLast?_append, List.getLast?_cons_cons,
        List.getLast?_eq_getLast (y :: ys) (by simp)]
      rfl
    rw [h2]
    cases h3 : (y :: ys).getLast? with
    | none => simp at h3
    | some e =>
      simp only [List.set_append_right _ _ (Nat.le_refl _)]
      simp [List.dropLast_append_cons]

theorem split_at_index {α : Type} (xs : List α) (Idx : Nat) (x : α) (h : xs[Idx]? = some x) :
    xs = xs.take Idx ++ x :: xs.drop (Idx + 1) ∧ (xs.take Idx).length = Idx := by
  obtain ⟨hlt, hx⟩ := List.getElem?_eq_some_iff.mp h
  refine ⟨?_, by simp; omega⟩
  rw [← hx]
  simp

theorem swapTail_mem {α : Type} (post : List α) (x : α) (hx : x ∈ swapTail post) :
    x ∈ post := by
  unfold swapTail at hx
  cases h : post.getLast? with
  | none => rw [h] at hx; simp at hx
  | some e =>
    rw [h] at hx
    simp only [List.mem_cons] at hx
    rcases hx with rfl | hx
    · exact List.mem_of_getLast?_eq_some h
    · exact List.dropLast_subset post hx

theorem RemoveAtSwap_at {α : Type} (xs : List α) (Idx : Nat) (x : α) (h : xs[Idx]? = some x) :
    RemoveAtSwap xs Idx = xs.take Idx ++ swapTail (xs.drop (Idx + 1)) := by
  obtain ⟨hsplit, hlen⟩ := split_at_index xs Idx x h
  have := RemoveAtSwap_append (xs.take Idx) (xs.drop (Idx + 1)) x
  rw [hlen, ← hsplit] at this
  exact this

theorem gatherLoop_dormant (LA : TMap FName (List FActorRepListType)) (n : Nat)
    (Levels : List FName) (Params : FConnectionGatherActorListParameters)
    (b : FActorRepListType) :
    dormantOnConnection (gatherLoop LA n Levels Params).2.ActorInfoMap b =
      dormantOnConnection Params.ActorInfoMap b := by
  induction n generalizing Levels Params with
  | zero => rfl
  | succ Idx ih =>
    simp only [gatherLoop]
    split
    · rfl
    · split
      · exact ih _ _
      · split
        · split
          · rw [ih]; exact allDormantLoop_dormant _ _ _
          · rw [ih]; exact allDormantLoop_dormant _ _ _
        · exact ih _ _

theorem KeptLevel_congr (LA : TMap FName (List FActorRepListType))
    (m1 m2 : FPerConnectionActorInfoMap)
    (h : ∀ b, dormantOnConnection m1 b = dormantOnConnection m2 b) (x : FName)
    (hk : KeptLevel LA m1 x) : KeptLevel LA m2 x := by
  obtain ⟨l, hl, hk⟩ := hk
  refine ⟨l, hl, ?_⟩
  rcases hk with hk | ⟨a, ha, hd⟩
  · exact Or.inl hk
  · exact Or.inr ⟨a, ha, by rw [← h]; exact hd⟩

theorem gatherLoop_levels (LA : TMap FName (List FActorRepListType)) (n : Nat)
    (Levels : List FName) (Params : FConnectionGatherActorListParameters)
    (hn : n ≤ Levels.length)
    (x : FName) (hx : x ∈ (gatherLoop LA n Levels Params).1) :
    x ∈ Levels.drop n ∨ (x ∈ Levels.take n ∧ KeptLevel LA Params.ActorInfoMap x) := by
  induction n generalizing Levels Params with
  | zero => left; simpa [gatherLoop] using hx
  | succ Idx ih =>
    simp only [gatherLoop] at hx
    split at hx
    · rename_i hget
      have hle : Levels.length ≤ Idx := List.getElem?_eq_none_iff.mp hget
      omega
    · rename_i s hget
      have hsw := RemoveAtSwap_at Levels Idx s hget
      obtain ⟨hsplit, hlen⟩ := split_at_index Levels Idx s hget
      have htake : ∀ y, y ∈ Levels.take Idx → y ∈ Levels.take (Idx + 1) := by
        intro y hy
        rw [List.take_succ]
        exact List.mem_append_left _ hy
      have hs : s ∈ Levels.take (Idx + 1) := by
        rw [List.take_succ, hget]
        simp
      have hdrop : Levels.drop Idx = s :: Levels.drop (Idx + 1) := by
        conv_lhs => rw [hsplit]
        rw [List.drop_append_of_le_length (by rw [hlen]), List.drop_eq_nil_of_le (by rw [hlen])]
        · simp
      have hremoved : ∀ P : FConnectionGatherActorListParameters,
          (∀ b, dormantOnConnection P.ActorInfoMap b = dormantOnConnection Params.ActorInfoMap b) →
          x ∈ (gatherLoop LA Idx (RemoveAtSwap Levels Idx) P).1 →
          x ∈ Levels.drop (Idx + 1) ∨
            (x ∈ Levels.take (Idx + 1) ∧ KeptLevel LA Params.ActorInfoMap x) := by
        intro P hP hx
        have hlen2 : Idx ≤ (RemoveAtSwap Levels Idx).length := by
          rw [hsw, List.length_append, hlen]; omega
        rcases ih _ _ hlen2 hx with h | ⟨h, hk⟩
        · left
          rw [hsw, List.drop_append_of_le_length (by rw [hlen]),
            List.drop_eq_nil_of_le (by rw [hlen]), List.nil_append] at h
          exact swapTail_mem _ _ h
        · right
          rw [hsw, List.take_append_of_le_length (by rw [hlen]),
            List.take_of_length_le (by rw [hlen])] at h
          exact ⟨htake x h, KeptLevel_congr LA _ _ hP x hk⟩
      have hkept : ∀ P : FConnectionGatherActorListParameters,
          (∀ b, dormantOnConnection P.ActorInfoMap b = dormantOnConnection Params.ActorInfoMap b) →
          KeptLevel LA Params.ActorInfoMap s →
          x ∈ (gatherLoop LA Idx Levels P).1 →
          x ∈ Levels.drop (Idx + 1) ∨
            (x ∈ Levels.take (Idx + 1) ∧ KeptLevel LA Params.ActorInfoMap x) := by
        intro P hP hks hx
        rcases ih _ _ (by omega) hx with h | ⟨h, hk⟩
        · rw [hdrop, List.mem_cons] at h
          rcases h with rfl | h
          · exact Or.inr ⟨hs, hks⟩
          · exact Or.inl h
        · exact Or.inr ⟨htake x h, KeptLevel_congr LA _ _ hP x hk⟩
      split at hx
      · exact hremoved Params (fun _ => rfl) hx
      · rename_i RepList hfind
        split at hx
        · rename_i hpos
          split at hx
          · exact hremoved _ (fun b => allDormantLoop_dormant _ _ b) hx
          · rename_i hnot
            refine hkept _ (fun b => allDormantLoop_dormant _ _ b) ?_ hx
            refine ⟨RepList, hfind, Or.inr ?_⟩
            have := (allDormantLoop_true RepList Params.ActorInfoMap).not.mp hnot
            push_neg at this
            obtain ⟨a, ha, hd⟩ := this
            exact ⟨a, ha, by simpa using hd⟩
        · rename_i hzero
          refine hkept _ (fun _ => rfl) ⟨RepList, hfind, Or.inl ?_⟩ hx
          simpa using hzero

theorem gatherLoop_out (LA : TMap FName (List FActorRepListType)) (n : Nat)
    (Levels : List FName) (Params : FConnectionGatherActorListParameters)
    (hn : n ≤ Levels.length) :
    ∃ added, (gatherLoop LA n Levels Params).2.OutGatheredReplicationLists =
        Params.OutGatheredReplicationLists ++ added ∧
      ∀ l ∈ added, EmittedList LA Params.ActorInfoMap (Levels.take n) l := by
  induction n generalizing Levels Params with
  | zero => exact ⟨[], by simp [gatherLoop]⟩
  | succ Idx ih =>
    simp only [gatherLoop]
    split
    · rename_i hget
      have hle : Levels.length ≤ Idx := List.getElem?_eq_none_iff.mp hget
      omega
    · rename_i s hget
      have hsw := RemoveAtSwap_at Levels Idx s hget
      obtain ⟨hsplit, hlen⟩ := split_at_index Levels Idx s hget
      have htake : ∀ y, y ∈ Levels.take Idx → y ∈ Levels.take (Idx + 1) := by
        intro y hy
        rw [List.take_succ]
        exact List.mem_append_left _ hy
      have hs : s ∈ Levels.take (Idx + 1) := by
        rw [List.take_succ, hget]
        simp
      have hlen2 : Idx ≤ (RemoveAtSwap Levels Idx).length := by
        rw [hsw, List.length_append, hlen]; omega
      have htk : (RemoveAtSwap Levels Idx).take Idx = Levels.take Idx := by
        rw [hsw, List.take_append_of_le_length (by rw [hlen]),
            List.take_of_length_le (by rw [hlen])]
      have hmono : ∀ (m : FPerConnectionActorInfoMap) (L : List FName) (l : List FActorRepListType),
          (∀ b, dormantOnConnection m b = dormantOnConnection Params.ActorInfoMap b) →
          (∀ y ∈ L, y ∈ Levels.take (Idx + 1)) →
          EmittedList LA m L l → EmittedList LA Params.ActorInfoMap (Levels.take (Idx + 1)) l := by
        intro m L l hm hL ⟨⟨z, hz, hf⟩, hne, a, ha, hd⟩
        exact ⟨⟨z, hL z hz, hf⟩, hne, a, ha, by rw [← hm]; exact hd⟩
      split
      · obtain ⟨added, h1, h2⟩ := ih (RemoveAtSwap Levels Idx) Params hlen2
        refine ⟨added, h1, fun l hl => hmono _ _ l (fun _ => rfl) ?_ (h2 l hl)⟩
        rw [htk]; exact htake
      · rename_i RepList hfind
        split
        · rename_i hpos
          split
          · obtain ⟨added, h1, h2⟩ := ih (RemoveAtSwap Levels Idx)
              { Params with ActorInfoMap := (allDormantLoop RepList Params.ActorInfoMap).2 } hlen2
            refine ⟨added, h1, fun l hl =>
              hmono _ _ l (fun b => allDormantLoop_dormant _ _ b) ?_ (h2 l hl)⟩
            rw [htk]; exact htake
          · rename_i hnot
            obtain ⟨added, h1, h2⟩ := ih Levels
              { ActorInfoMap := (allDormantLoop RepList Params.ActorInfoMap).2
                OutGatheredReplicationLists := Params.OutGatheredReplicationLists ++ [RepList] }
              (by omega)
            refine ⟨RepList :: added, by rw [h1]; simp, ?_⟩
            intro l hl
            rcases List.mem_cons.mp hl with rfl | hl
            · have := (allDormantLoop_true l Params.ActorInfoMap).not.mp hnot
              push_neg at this
              obtain ⟨a, ha, hd⟩ := this
              refine ⟨⟨s, hs, hfind⟩, ?_, a, ha, by simpa using hd⟩
              intro h; rw [h] at hpos; simp at hpos
            · exact hmono _ _ l (fun b => allDormantLoop_dormant _ _ b) htake (h2 l hl)
        · obtain ⟨added, h1, h2⟩ := ih Levels Params (by omega)
          exact ⟨added, h1, fun l hl => hmono _ _ l (fun _ => rfl) htake (h2 l hl)⟩

/-- C1: a level whose shared actor list is non-empty and holds only actors
that are dormant on the connection is no longer tracked by the node after the
gather, and its list is not among the lists the gather appends to the output
(the output gathered before the call is kept as a prefix). -/
theorem gather_drops_all_dormant_level (LevelActors : TMap FName (List FActorRepListType))
    (Node : UDAReplicationGraphNode_AlwaysRelevant_ForConnection)
    (Params : FConnectionGatherActorListParameters)
    (StreamingLevel : FName) (RepList : List FActorRepListType)
    (htracked : StreamingLevel ∈ Node.AlwaysRelevantStreamingLevels)
    (hfind : TMap.Find LevelActors StreamingLevel = some RepList)
    (hne : RepList ≠ [])
    (hdormant : ∀ a ∈ RepList, dormantOnConnection Params.ActorInfoMap a = true) :
    StreamingLevel ∉
        (GatherActorListsForConnection LevelActors Node Params).1.AlwaysRelevantStreamingLevels ∧
      (GatherActorListsForConnection LevelActors Node Params).2.OutGatheredReplicationLists.take
        Params.OutGatheredReplicationLists.length = Params.OutGatheredReplicationLists ∧
      RepList ∉
        (GatherActorListsForConnection LevelActors Node Params).2.OutGatheredReplicationLists.drop
          Params.OutGatheredReplicationLists.length := by
  have _ := htracked
  unfold GatherActorListsForConnection
  simp only
  refine ⟨?_, ?_⟩
  · intro hmem
    rcases gatherLoop_levels LevelActors _ _ Params (Nat.le_refl _) _ hmem with h | ⟨_, l, hl, hk⟩
    · simp at h
    · rw [hfind] at hl
      injection hl with hl
      subst hl
      rcases hk with hk | ⟨a, ha, hd⟩
      · exact hne hk
      · rw [hdormant a ha] at hd; cases hd
  · obtain ⟨added, h1, h2⟩ := gatherLoop_out LevelActors _
      Node.AlwaysRelevantStreamingLevels Params (Nat.le_refl _)
    rw [h1]
    refine ⟨by simp, ?_⟩
    simp only [List.drop_left]
    intro hmem
    obtain ⟨_, _, a, ha, hd⟩ := h2 _ hmem
    rw [hdormant a ha] at hd; cases hd

/-- Witness for C1: the level 5 ("Cave_01") holds the actors 1 and 2, both
dormant on the connection; the level 6 holds the awake actor 3. -/
theorem gather_drops_all_dormant_level_witness :
    (5 ∉ (GatherActorListsForConnection [(5, [1, 2]), (6, [3])] ⟨[5, 6]⟩
            ⟨[(1, ⟨true⟩), (2, ⟨true⟩)], [[9]]⟩).1.AlwaysRelevantStreamingLevels) ∧
      (GatherActorListsForConnection [(5, [1, 2]), (6, [3])] ⟨[5, 6]⟩
            ⟨[(1, ⟨true⟩), (2, ⟨true⟩)], [[9]]⟩).2.OutGatheredReplicationLists = [[9], [3]] :=
  ⟨(gather_drops_all_dormant_level [(5, [1, 2]), (6, [3])] ⟨[5, 6]⟩
      ⟨[(1, ⟨true⟩), (2, ⟨true⟩)], [[9]]⟩ 5 [1, 2] (by decide) (by decide) (by decide)
      (by decide)).1, by decide⟩

/-! ## Lemmas on the class-keyed map and the policy lookup -/

theorem Find_Modify_self {K V : Type} [DecidableEq K] (m : TMap K V) (k : K) (f : V → V) :
    TMap.Find (TMap.Modify m k f) k = (TMap.Find m k).map f := by
  induction m with
  | nil => rfl
  | cons p rest ih =>
    obtain ⟨k1, v1⟩ := p
    by_cases h : k1 = k
    · simp [TMap.Modify, TMap.Find, h]
    · simpa [TMap.Modify, TMap.Find, h] using ih

theorem Find_Modify_other {K V : Type} [DecidableEq K] (m : TMap K V) (k k2 : K) (f : V → V)
    (hne : k ≠ k2) : TMap.Find (TMap.Modify m k f) k2 = TMap.Find m k2 := by
  induction m with
  | nil => rfl
  | cons p rest ih =>
    obtain ⟨k1, v1⟩ := p
    by_cases h : k1 = k
    · subst h
      simp [TMap.Modify, TMap.Find, hne]
    · by_cases h2 : k1 = k2
      · simp [TMap.Modify, TMap.Find, h, h2]
        subst h2
        simp [TMap.Find, h]
      · simpa [TMap.Modify, TMap.Find, h, h2] using ih

theorem Modify_absent {K V : Type} [DecidableEq K] (m : TMap K V) (k : K) (f : V → V)
    (h : TMap.Find m k = none) : TMap.Modify m k f = m := by
  induction m with
  | nil => rfl
  | cons p rest ih =>
    obtain ⟨k1, v1⟩ := p
    by_cases h1 : k1 = k
    · simp [TMap.Find, h1] at h
    · simp only [TMap.Find, h1, if_false] at h
      simp [TMap.Modify, h1, ih h]

theorem Modify_id {K V : Type} [DecidableEq K] (m : TMap K V) (k : K) (f : V → V)
    (h : ∀ v, TMap.Find m k = some v → f v = v) : TMap.Modify m k f = m := by
  induction m with
  | nil => rfl
  | cons p rest ih =>
    obtain ⟨k1, v1⟩ := p
    by_cases h1 : k1 = k
    · have := h v1 (by simp [TMap.Find, h1])
      simp [TMap.Modify, h1, this]
    · have h2 : ∀ v, TMap.Find rest k = some v → f v = v := by
        intro v hv
        exact h v (by simpa [TMap.Find, h1] using hv)
      simp [TMap.Modify, h1, ih h2]

theorem Find_Add_self {K V : Type} [DecidableEq K] (m : TMap K V) (k : K) (v : V) :
    TMap.Find (TMap.Add m k v) k = some v := by
  unfold TMap.Add
  cases h : TMap.Find m k with
  | some w => simp [Find_Modify_self, h]
  | none => simp [Find_append_absent, h]

theorem Find_Add_other {K V : Type} [DecidableEq K] (m : TMap K V) (k k2 : K) (v : V)
    (hne : k ≠ k2) : TMap.Find (TMap.Add m k v) k2 = TMap.Find m k2 := by
  unfold TMap.Add
  cases h : TMap.Find m k with
  | some w => simp [Find_Modify_other _ _ _ _ hne]
  | none =>
    simp only [Find_append_absent, hne, if_false]
    cases TMap.Find m k2 <;> rfl

theorem Find_FindOrAdd_self {K V : Type} [DecidableEq K] (m : TMap K V) (k : K) (d : V) :
    TMap.Find (TMap.FindOrAdd m k d) k = some ((TMap.Find m k).getD d) := by
  unfold TMap.FindOrAdd
  cases h : TMap.Find m k with
  | some w => simp [h]
  | none => simp [Find_append_absent, h]

theorem Find_FindOrAdd_other {K V : Type} [DecidableEq K] (m : TMap K V) (k k2 : K) (d : V)
    (hne : k ≠ k2) : TMap.Find (TMap.FindOrAdd m k d) k2 = TMap.Find m k2 := by
  unfold TMap.FindOrAdd
  cases h : TMap.Find m k with
  | some w => rfl
  | none =>
    simp only [Find_append_absent, hne, if_false]
    cases TMap.Find m k2 <;> rfl

/-- The value `TClassMap::Get` resolves for a class: its own entry, else the
entry of its nearest ancestor that has one. -/
theorem walk_result {F V : Type} [DecidableEq F] (m : TClassMap F V) (O c : UClass F) :
    (TClassMap.GetClassInfoForNewClass_r m O c).1 = none ∧
        (TClassMap.GetClassInfoForNewClass_r m O c).2 = m ∨
      ∃ v, (TClassMap.GetClassInfoForNewClass_r m O c).1 = some v ∧
        (TClassMap.GetClassInfoForNewClass_r m O c).2 = TMap.Add m O v := by
  induction c with
  | root n => left; exact ⟨rfl, rfl⟩
  | derived n d s ih =>
    simp only [TClassMap.GetClassInfoForNewClass_r]
    cases h : TMap.Find m s with
    | some v => right; exact ⟨v, rfl, rfl⟩
    | none => exact ih

theorem Get_result {F V : Type} [DecidableEq F] (m : TClassMap F V) (c : UClass F) :
    (TClassMap.Get m c).1 = none ∧ (TClassMap.Get m c).2 = m ∨
      ∃ v, (TClassMap.Get m c).1 = some v ∧ TMap.Find (TClassMap.Get m c).2 c = some v := by
  unfold TClassMap.Get
  cases h : TMap.Find m c with
  | some v => right; exact ⟨v, rfl, h⟩
  | none =>
    rcases walk_result m c c with h1 | ⟨v, h1, h2⟩
    · left; exact h1
    · right; exact ⟨v, h1, by rw [h2]; exact Find_Add_self m c v⟩

theorem Get_Get {F V : Type} [DecidableEq F] (m : TClassMap F V) (c : UClass F) :
    TClassMap.Get (TClassMap.Get m c).2 c = TClassMap.Get m c := by
  rcases Get_result m c with ⟨h1, h2⟩ | ⟨v, h1, h2⟩
  · rw [h2]
  · generalize hg : TClassMap.Get m c = r at h1 h2
    unfold TClassMap.Get
    rw [h2]
    exact Prod.ext h1.symm rfl

theorem GetMappingPolicy_eq {F : Type} [DecidableEq F] (m : TClassMap F EClassRepPolicy)
    (c : UClass F) :
    GetMappingPolicy m c =
      ((TClassMap.Get m c).1.getD EClassRepPolicy.NotRouted, (TClassMap.Get m c).2) := by
  unfold GetMappingPolicy
  simp only [Get_Get]
  cases h : (TClassMap.Get m c).1 with
  | some v => simp [h]
  | none => simp

theorem GetMappingPolicy_again {F : Type} [DecidableEq F] (m : TClassMap F EClassRepPolicy)
    (c : UClass F) :
    GetMappingPolicy (GetMappingPolicy m c).2 c = GetMappingPolicy m c := by
  simp only [GetMappingPolicy_eq, Get_Get]

/-! ## Routing of a spawned actor -/

/-- C2: `RouteAddNetworkActorToNodes` registers the actor in the one structure
its class policy selects and leaves the other two as they were: the global
list for `RelevantAllConnections` without level, the shared list of the level
(created when absent, the actor appended) for `RelevantAllConnections` with a
level, the grid's static / dynamic / dormancy add for the three spatialized
policies, nothing for `NotRouted`, which is also the policy of a class for
which the lookup finds no entry. -/
theorem route_add_registers_by_policy {F : Type} [DecidableEq F] (g : UMyReplicationGraph F)
    (ActorInfo : FNewReplicatedActorInfo F) (GlobalInfo : FGlobalActorReplicationInfo) :
    g.PolicyOf ActorInfo.Class =
        (TClassMap.Get g.ClassRepPolicies ActorInfo.Class).1.getD EClassRepPolicy.NotRouted ∧
    (RouteAddNetworkActorToNodes g ActorInfo GlobalInfo).AlwaysRelevantNode.ReplicationActorList =
        (if g.PolicyOf ActorInfo.Class = EClassRepPolicy.RelevantAllConnections ∧
            ActorInfo.StreamingLevelName = NAME_None
          then g.AlwaysRelevantNode.ReplicationActorList ++ [ActorInfo.Actor]
          else g.AlwaysRelevantNode.ReplicationActorList) ∧
    (if g.PolicyOf ActorInfo.Class = EClassRepPolicy.RelevantAllConnections ∧
          ActorInfo.StreamingLevelName ≠ NAME_None
      then
        TMap.Find (RouteAddNetworkActorToNodes g ActorInfo GlobalInfo).AlwaysRelevantStreamingLevelActors
            ActorInfo.StreamingLevelName =
          some ((TMap.Find g.AlwaysRelevantStreamingLevelActors
            ActorInfo.StreamingLevelName).getD [] ++ [ActorInfo.Actor]) ∧
        ∀ z, z ≠ ActorInfo.StreamingLevelName →
          TMap.Find (RouteAddNetworkActorToNodes g ActorInfo GlobalInfo).AlwaysRelevantStreamingLevelActors z =
            TMap.Find g.AlwaysRelevantStreamingLevelActors z
      else
        (RouteAddNetworkActorToNodes g ActorInfo GlobalInfo).AlwaysRelevantStreamingLevelActors =
          g.AlwaysRelevantStreamingLevelActors) ∧
    (RouteAddNetworkActorToNodes g ActorInfo GlobalInfo).GridNode =
        (match g.PolicyOf ActorInfo.Class with
          | .Spatialize_Static => g.GridNode.AddActor_Static ActorInfo.Actor GlobalInfo
          | .Spatialize_Dynamic => g.GridNode.AddActor_Dynamic ActorInfo.Actor GlobalInfo
          | .Spatialize_Dormancy => g.GridNode.AddActor_Dormancy ActorInfo.Actor GlobalInfo
          | .RelevantAllConnections => g.GridNode
          | .NotRouted => g.GridNode) := by
  unfold UMyReplicationGraph.PolicyOf RouteAddNetworkActorToNodes
  simp only [GetMappingPolicy_again]
  refine ⟨by rw [GetMappingPolicy_eq], ?_⟩
  cases hp : (GetMappingPolicy g.ClassRepPolicies ActorInfo.Class).1 with
  | RelevantAllConnections =>
    by_cases hz : ActorInfo.StreamingLevelName = NAME_None
    · simp [hz, UReplicationGraphNode_ActorList.NotifyAddNetworkActor]
    · have hz2 : ActorInfo.StreamingLevelName ≠ NAME_None := hz
      simp only [hz, if_false, and_false, true_and]
      rw [if_pos hz2]
      refine ⟨⟨?_, ?_⟩, trivial⟩
      · rw [Find_Modify_self, Find_FindOrAdd_self]; rfl
      · intro z hne
        rw [Find_Modify_other _ _ _ _ (Ne.symm hne), Find_FindOrAdd_other _ _ _ _ (Ne.symm hne)]
  | Spatialize_Static => simp
  | Spatialize_Dynamic => simp
  | Spatialize_Dormancy => simp
  | NotRouted => simp

/-! ## Removal -/

theorem swapTail_perm {α : Type} (post : List α) : (swapTail post).Perm post := by
  unfold swapTail
  cases h : post.getLast? with
  | none => rw [List.getLast?_eq_none_iff.mp h]
  | some e =>
    have h1 : post ≠ [] := by
      intro h2; rw [h2] at h; cases h
    have h2 : post.getLast h1 = e := by
      rw [List.getLast?_eq_getLast post h1] at h
      exact Option.some.inj h
    have h3 := List.dropLast_append_getLast h1
    rw [h2] at h3
    conv_rhs => rw [← h3]
    exact (List.perm_append_singleton e post.dropLast).symm

theorem RemoveFast_absent (l : List FActorRepListType) (a : FActorRepListType) (h : a ∉ l) :
    RemoveFast l a = l := by
  unfold RemoveFast
  rw [if_neg h]

theorem RemoveFast_split (pre post : List FActorRepListType) (a : FActorRepListType)
    (h : a ∉ pre) : RemoveFast (pre ++ a :: post) a = pre ++ swapTail post := by
  unfold RemoveFast
  rw [if_pos (by simp)]
  have : (pre ++ a :: post).indexOf a = pre.length := by
    rw [List.indexOf_append_of_not_mem h]
    simp
  rw [this, RemoveAtSwap_append]

theorem RemoveFast_append_self (l : List FActorRepListType) (a : FActorRepListType)
    (h : a ∉ l) : RemoveFast (l ++ [a]) a = l := by
  rw [RemoveFast_split l [] a h]
  simp [swapTail]

theorem RemoveFast_count (l : List FActorRepListType) (a : FActorRepListType) :
    (RemoveFast l a).count a = l.count a - 1 := by
  by_cases h : a ∈ l
  · obtain ⟨pre, post, rfl, hpre⟩ := List.eq_append_cons_of_mem h
    rw [RemoveFast_split pre post a hpre]
    simp only [List.count_append, List.count_cons_self, (swapTail_perm post).count_eq]
    omega
  · rw [RemoveFast_absent l a h, List.count_eq_zero_of_not_mem h]

theorem RemoveFast_twice (l : List FActorRepListType) (a : FActorRepListType)
    (h : l.count a ≤ 1) : RemoveFast (RemoveFast l a) a = RemoveFast l a := by
  apply RemoveFast_absent
  intro hmem
  have := List.count_pos_iff.mpr hmem
  rw [RemoveFast_count] at this
  omega

theorem RemoveSlow_twice (l : List FActorRepListType) (a : FActorRepListType)
    (h : l.count a ≤ 1) : RemoveSlow (RemoveSlow l a) a = RemoveSlow l a := by
  unfold RemoveSlow
  apply List.erase_of_not_mem
  intro hmem
  have := List.count_pos_iff.mpr hmem
  rw [List.count_erase_self] at this
  omega

theorem gridRemove_twice (l : List FActorRepListType) (a : FActorRepListType) :
    gridRemove (gridRemove l a) a = gridRemove l a := by
  unfold gridRemove
  simp [List.filter_filter]

theorem gridRemove_absent (l : List FActorRepListType) (a : FActorRepListType) (h : a ∉ l) :
    gridRemove l a = l := by
  unfold gridRemove
  rw [List.filter_eq_self]
  intro b hb
  simp only [ne_eq, decide_not, Bool.not_eq_eq_eq_not, Bool.not_true, decide_eq_false_iff_not]
  rintro rfl
  exact h hb

theorem gridRemove_insert (l : List FActorRepListType) (a : FActorRepListType) (h : a ∉ l) :
    gridRemove (gridInsert l a) a = l := by
  unfold gridInsert
  rw [if_neg h]
  unfold gridRemove
  rw [List.filter_append]
  have := gridRemove_absent l a h
  unfold gridRemove at this
  rw [this]
  simp

theorem Modify_Modify {K V : Type} [DecidableEq K] (m : TMap K V) (k : K) (f g : V → V) :
    TMap.Modify (TMap.Modify m k f) k g = TMap.Modify m k (fun v => g (f v)) := by
  induction m with
  | nil => rfl
  | cons p rest ih =>
    obtain ⟨k1, v1⟩ := p
    by_cases h : k1 = k
    · simp [TMap.Modify, h]
    · simp [TMap.Modify, h, ih]

theorem FindOrAdd_again {K V : Type} [DecidableEq K] (m : TMap K V) (k : K) (d : V)
    (h : (TMap.Find m k).isSome) : TMap.FindOrAdd m k d = m := by
  unfold TMap.FindOrAdd
  cases h1 : TMap.Find m k with
  | some w => rfl
  | none => rw [h1] at h; cases h

theorem PolicyOf_RouteRemove {F : Type} [DecidableEq F] (g : UMyReplicationGraph F)
    (ActorInfo : FNewReplicatedActorInfo F) :
    GetMappingPolicy (RouteRemoveNetworkActorToNodes g ActorInfo).ClassRepPolicies ActorInfo.Class =
      GetMappingPolicy g.ClassRepPolicies ActorInfo.Class := by
  have h : (RouteRemoveNetworkActorToNodes g ActorInfo).ClassRepPolicies =
      (GetMappingPolicy g.ClassRepPolicies ActorInfo.Class).2 := by
    unfold RouteRemoveNetworkActorToNodes
    simp only
    split <;> try rfl
    split <;> rfl
  rw [h, GetMappingPolicy_again]

theorem PolicyOf_RouteAdd {F : Type} [DecidableEq F] (g : UMyReplicationGraph F)
    (ActorInfo : FNewReplicatedActorInfo F) (GlobalInfo : FGlobalActorReplicationInfo) :
    GetMappingPolicy (RouteAddNetworkActorToNodes g ActorInfo GlobalInfo).ClassRepPolicies
        ActorInfo.Class =
      GetMappingPolicy g.ClassRepPolicies ActorInfo.Class := by
  have h : (RouteAddNetworkActorToNodes g ActorInfo GlobalInfo).ClassRepPolicies =
      (GetMappingPolicy g.ClassRepPolicies ActorInfo.Class).2 := by
    unfold RouteAddNetworkActorToNodes
    simp only [GetMappingPolicy_again]
    split <;> try rfl
    split <;> rfl
  rw [h, GetMappingPolicy_again]

/-- C4, amended: when the list selected by the actor's policy and level holds
the actor at most once, a second `RouteRemoveNetworkActorToNodes` leaves the
graph exactly as the first one left it. -/
theorem route_remove_twice {F : Type} [DecidableEq F] (g : UMyReplicationGraph F)
    (ActorInfo : FNewReplicatedActorInfo F)
    (honce : AtMostOnceWhereRouted g ActorInfo = true) :
    RouteRemoveNetworkActorToNodes (RouteRemoveNetworkActorToNodes g ActorInfo) ActorInfo =
      RouteRemoveNetworkActorToNodes g ActorInfo := by
  have hpol := PolicyOf_RouteRemove g ActorInfo
  generalize hg1 : RouteRemoveNetworkActorToNodes g ActorInfo = g1 at hpol
  unfold AtMostOnceWhereRouted UMyReplicationGraph.PolicyOf at honce
  rw [RouteRemoveNetworkActorToNodes, hpol]
  unfold RouteRemoveNetworkActorToNodes at hg1
  simp only at hg1 ⊢
  cases hp : (GetMappingPolicy g.ClassRepPolicies ActorInfo.Class).1 with
  | RelevantAllConnections =>
    rw [hp] at hg1 honce
    simp only at hg1 honce ⊢
    by_cases hz : ActorInfo.StreamingLevelName = NAME_None
    · simp only [hz, if_true, decide_eq_true_eq] at hg1 honce ⊢
      subst hg1
      simp only [UReplicationGraphNode_ActorList.NotifyRemoveNetworkActor,
        RemoveSlow_twice _ _ honce]
    · simp only [hz, if_false, decide_eq_true_eq] at hg1 honce ⊢
      subst hg1
      simp only
      congr 1
      rw [FindOrAdd_again _ _ _ (by rw [Find_Modify_self, Find_FindOrAdd_self]; rfl)]
      apply Modify_id
      intro v hv
      rw [Find_Modify_self, Find_FindOrAdd_self] at hv
      simp only [Option.map_some', Option.some.injEq] at hv
      rw [← hv]
      exact RemoveFast_twice _ _ honce
  | Spatialize_Static =>
    rw [hp] at hg1
    subst hg1
    simp [UReplicationGraphNode_GridSpatialization2D.RemoveActor_Static, gridRemove_twice]
  | Spatialize_Dynamic =>
    rw [hp] at hg1
    subst hg1
    simp [UReplicationGraphNode_GridSpatialization2D.RemoveActor_Dynamic, gridRemove_twice]
  | Spatialize_Dormancy =>
    rw [hp] at hg1
    subst hg1
    simp [UReplicationGraphNode_GridSpatialization2D.RemoveActor_Dormancy, gridRemove_twice]
  | NotRouted =>
    rw [hp] at hg1
    subst hg1
    rfl

theorem FindOrAdd_eq {K V : Type} [DecidableEq K] [DecidableEq V] (m : TMap K V) (k : K) (d : V) :
    TMap.FindOrAdd m k d = if TMap.Find m k = none then m ++ [(k, d)] else m := by
  unfold TMap.FindOrAdd
  cases h : TMap.Find m k <;> simp

/-- C5, amended: removing an actor that the structure selected by its policy
and level does not hold leaves the global list and the grid unchanged, and
leaves the shared level map unchanged except that a `RelevantAllConnections`
actor naming a level without entry makes the removal create an entry with an
empty list for that level. -/
theorem route_remove_absent {F : Type} [DecidableEq F] (g : UMyReplicationGraph F)
    (ActorInfo : FNewReplicatedActorInfo F)
    (habsent : PresentWhereRouted g ActorInfo = false) :
    (RouteRemoveNetworkActorToNodes g ActorInfo).AlwaysRelevantNode = g.AlwaysRelevantNode ∧
    (RouteRemoveNetworkActorToNodes g ActorInfo).GridNode = g.GridNode ∧
    (RouteRemoveNetworkActorToNodes g ActorInfo).AlwaysRelevantStreamingLevelActors =
      LevelMapTouched g ActorInfo := by
  unfold PresentWhereRouted at habsent
  unfold LevelMapTouched UMyReplicationGraph.PolicyOf RouteRemoveNetworkActorToNodes at *
  simp only
  cases hp : (GetMappingPolicy g.ClassRepPolicies ActorInfo.Class).1 with
  | RelevantAllConnections =>
    rw [hp] at habsent
    simp only at habsent ⊢
    by_cases hz : ActorInfo.StreamingLevelName = NAME_None
    · simp only [hz, if_true, decide_eq_false_iff_not] at habsent ⊢
      simp [UReplicationGraphNode_ActorList.NotifyRemoveNetworkActor, RemoveSlow,
        List.erase_of_not_mem habsent]
    · simp only [hz, if_false, decide_eq_false_iff_not] at habsent ⊢
      refine ⟨trivial, trivial, ?_⟩
      rw [Modify_id, FindOrAdd_eq]
      · simp [hz]
      · intro v hv
        rw [Find_FindOrAdd_self] at hv
        injection hv with hv
        rw [← hv]
        exact RemoveFast_absent _ _ habsent
  | Spatialize_Static =>
    rw [hp] at habsent
    simp only [decide_eq_false_iff_not] at habsent
    simp [UReplicationGraphNode_GridSpatialization2D.RemoveActor_Static,
      gridRemove_absent _ _ habsent]
  | Spatialize_Dynamic =>
    rw [hp] at habsent
    simp only [decide_eq_false_iff_not] at habsent
    simp [UReplicationGraphNode_GridSpatialization2D.RemoveActor_Dynamic,
      gridRemove_absent _ _ habsent]
  | Spatialize_Dormancy =>
    rw [hp] at habsent
    simp only [decide_eq_false_iff_not] at habsent
    simp [UReplicationGraphNode_GridSpatialization2D.RemoveActor_Dormancy,
      gridRemove_absent _ _ habsent]
  | NotRouted => simp

/-- C3, amended: for an actor that the structure selected by its policy and
level does not hold, `RouteAddNetworkActorToNodes` followed by
`RouteRemoveNetworkActorToNodes` restores the global list and the grid, takes
the actor out of the selected structure again, and restores the shared level
map except that a level without entry before the add keeps an entry with an
empty list. -/
theorem route_add_then_remove {F : Type} [DecidableEq F] (g : UMyReplicationGraph F)
    (ActorInfo : FNewReplicatedActorInfo F) (GlobalInfo : FGlobalActorReplicationInfo)
    (habsent : PresentWhereRouted g ActorInfo = false) :
    (RouteRemoveNetworkActorToNodes (RouteAddNetworkActorToNodes g ActorInfo GlobalInfo)
        ActorInfo).AlwaysRelevantNode = g.AlwaysRelevantNode ∧
    (RouteRemoveNetworkActorToNodes (RouteAddNetworkActorToNodes g ActorInfo GlobalInfo)
        ActorInfo).GridNode = g.GridNode ∧
    (RouteRemoveNetworkActorToNodes (RouteAddNetworkActorToNodes g ActorInfo GlobalInfo)
        ActorInfo).AlwaysRelevantStreamingLevelActors = LevelMapTouched g ActorInfo ∧
    PresentWhereRouted (RouteRemoveNetworkActorToNodes
        (RouteAddNetworkActorToNodes g ActorInfo GlobalInfo) ActorInfo) ActorInfo = false := by
  have hpol := PolicyOf_RouteAdd g ActorInfo GlobalInfo
  have hpol2 := PolicyOf_RouteRemove (RouteAddNetworkActorToNodes g ActorInfo GlobalInfo) ActorInfo
  rw [hpol] at hpol2
  unfold PresentWhereRouted UMyReplicationGraph.PolicyOf at habsent ⊢
  rw [hpol2]
  unfold LevelMapTouched UMyReplicationGraph.PolicyOf
  rw [RouteRemoveNetworkActorToNodes, hpol]
  generalize hg1 : RouteAddNetworkActorToNodes g ActorInfo GlobalInfo = g1
  unfold RouteAddNetworkActorToNodes at hg1
  simp only [GetMappingPolicy_again] at hg1 ⊢
  cases hp : (GetMappingPolicy g.ClassRepPolicies ActorInfo.Class).1 with
  | RelevantAllConnections =>
    rw [hp] at hg1 habsent
    simp only at hg1 habsent ⊢
    by_cases hz : ActorInfo.StreamingLevelName = NAME_None
    · simp only [hz, if_true, decide_eq_false_iff_not] at hg1 habsent ⊢
      subst hg1
      simp [UReplicationGraphNode_ActorList.NotifyRemoveNetworkActor,
        UReplicationGraphNode_ActorList.NotifyAddNetworkActor, RemoveSlow,
        List.erase_append_right _ habsent, habsent]
    · simp only [hz, if_false, decide_eq_false_iff_not] at hg1 habsent ⊢
      subst hg1
      simp only
      have hmap : TMap.Modify (TMap.FindOrAdd (TMap.Modify (TMap.FindOrAdd
            g.AlwaysRelevantStreamingLevelActors ActorInfo.StreamingLevelName [])
            ActorInfo.StreamingLevelName (fun RepList => RepList ++ [ActorInfo.Actor]))
            ActorInfo.StreamingLevelName []) ActorInfo.StreamingLevelName
            (fun RepList => RemoveFast RepList ActorInfo.Actor) =
          TMap.FindOrAdd g.AlwaysRelevantStreamingLevelActors ActorInfo.StreamingLevelName [] := by
        rw [FindOrAdd_again _ _ _ (by rw [Find_Modify_self, Find_FindOrAdd_self]; rfl),
          Modify_Modify]
        apply Modify_id
        intro v hv
        rw [Find_FindOrAdd_self] at hv
        injection hv with hv
        rw [← hv]
        exact RemoveFast_append_self _ _ habsent
      rw [hmap]
      refine ⟨trivial, trivial, ?_, ?_⟩
      · rw [FindOrAdd_eq]; simp [hz]
      · rw [Find_FindOrAdd_self]
        simpa using habsent
  | Spatialize_Static =>
    rw [hp] at hg1 habsent
    simp only [decide_eq_false_iff_not] at habsent
    subst hg1
    simp [UReplicationGraphNode_GridSpatialization2D.RemoveActor_Static,
      UReplicationGraphNode_GridSpatialization2D.AddActor_Static,
      gridRemove_insert _ _ habsent, habsent]
  | Spatialize_Dynamic =>
    rw [hp] at hg1 habsent
    simp only [decide_eq_false_iff_not] at habsent
    subst hg1
    simp [UReplicationGraphNode_GridSpatialization2D.RemoveActor_Dynamic,
      UReplicationGraphNode_GridSpatialization2D.AddActor_Dynamic,
      gridRemove_insert _ _ habsent, habsent]
  | Spatialize_Dormancy =>
    rw [hp] at hg1 habsent
    simp only [decide_eq_false_iff_not] at habsent
    subst hg1
    simp [UReplicationGraphNode_GridSpatialization2D.RemoveActor_Dormancy,
      UReplicationGraphNode_GridSpatialization2D.AddActor_Dormancy,
      gridRemove_insert _ _ habsent, habsent]
  | NotRouted =>
    rw [hp] at hg1
    subst hg1
    simp

/-- Witness for C2: actor 7 of a `RelevantAllConnections` class spawned in
level 5 is appended to the shared list of level 5. -/
theorem route_add_registers_by_policy_witness :
    TMap.Find (RouteAddNetworkActorToNodes sampleGraphListed ⟨8, sampleRelevantAll, 5⟩
        ⟨false⟩).AlwaysRelevantStreamingLevelActors 5 = some [7, 3, 8] ∧
      (RouteAddNetworkActorToNodes sampleGraphListed ⟨8, sampleRelevantAll, 5⟩ ⟨false⟩).GridNode =
        sampleGraphListed.GridNode :=
  ⟨by decide,
    (route_add_registers_by_policy sampleGraphListed ⟨8, sampleRelevantAll, 5⟩ ⟨false⟩).2.2.2⟩

/-- Counterexample to C3 as stated: on the empty sample graph, adding and then
removing actor 7 of level 5 does not restore the shared level map, which keeps
an entry with an empty list for level 5. -/
theorem route_add_then_remove_not_restored :
    PresentWhereRouted sampleGraph sampleLevelActor = false ∧
      (RouteRemoveNetworkActorToNodes (RouteAddNetworkActorToNodes sampleGraph sampleLevelActor
        ⟨false⟩) sampleLevelActor).AlwaysRelevantStreamingLevelActors = [(5, [])] ∧
      (RouteRemoveNetworkActorToNodes (RouteAddNetworkActorToNodes sampleGraph sampleLevelActor
        ⟨false⟩) sampleLevelActor).AlwaysRelevantStreamingLevelActors ≠
        sampleGraph.AlwaysRelevantStreamingLevelActors := by
  decide

/-- Witness for C3, amended: actor 8 is not yet in the shared list of level 5. -/
theorem route_add_then_remove_witness :
    PresentWhereRouted sampleGraphListed ⟨8, sampleRelevantAll, 5⟩ = false ∧
      (RouteRemoveNetworkActorToNodes (RouteAddNetworkActorToNodes sampleGraphListed
        ⟨8, sampleRelevantAll, 5⟩ ⟨false⟩) ⟨8, sampleRelevantAll, 5⟩).AlwaysRelevantStreamingLevelActors
        = [(5, [7, 3])] :=
  ⟨by decide,
    (route_add_then_remove sampleGraphListed ⟨8, sampleRelevantAll, 5⟩ ⟨false⟩ (by decide)).2.2.1⟩

/-- Counterexample to C4 as stated: with actor 7 listed twice in the shared
list of level 5, the first removal leaves `[7]` and the second one `[]`. -/
theorem route_remove_twice_differs :
    (RouteRemoveNetworkActorToNodes sampleGraphListedTwice
        sampleLevelActor).AlwaysRelevantStreamingLevelActors = [(5, [7])] ∧
      (RouteRemoveNetworkActorToNodes (RouteRemoveNetworkActorToNodes sampleGraphListedTwice
        sampleLevelActor) sampleLevelActor).AlwaysRelevantStreamingLevelActors = [(5, [])] ∧
      RouteRemoveNetworkActorToNodes (RouteRemoveNetworkActorToNodes sampleGraphListedTwice
        sampleLevelActor) sampleLevelActor ≠
        RouteRemoveNetworkActorToNodes sampleGraphListedTwice sampleLevelActor := by
  refine ⟨by decide, by decide, ?_⟩
  intro h
  have h2 := congrArg UMyReplicationGraph.AlwaysRelevantStreamingLevelActors h
  revert h2
  decide

/-- Witness for C4, amended: actor 7 is listed once in the shared list of level 5. -/
theorem route_remove_twice_witness :
    AtMostOnceWhereRouted sampleGraphListed sampleLevelActor = true ∧
      RouteRemoveNetworkActorToNodes (RouteRemoveNetworkActorToNodes sampleGraphListed
        sampleLevelActor) sampleLevelActor =
        RouteRemoveNetworkActorToNodes sampleGraphListed sampleLevelActor :=
  ⟨by decide, route_remove_twice sampleGraphListed sampleLevelActor (by decide)⟩

/-- Counterexample to C5 as stated: removing actor 7 of level 5 from the empty
sample graph, where level 5 has no entry, adds the key 5 to the shared map. -/
theorem route_remove_absent_adds_key :
    PresentWhereRouted sampleGraph sampleLevelActor = false ∧
      sampleGraph.AlwaysRelevantStreamingLevelActors.map Prod.fst = [] ∧
      (RouteRemoveNetworkActorToNodes sampleGraph
        sampleLevelActor).AlwaysRelevantStreamingLevelActors.map Prod.fst = [5] := by
  decide

/-- Witness for C5, amended: actor 9 is not in the shared list of level 5. -/
theorem route_remove_absent_witness :
    PresentWhereRouted sampleGraphListed ⟨9, sampleRelevantAll, 5⟩ = false ∧
      (RouteRemoveNetworkActorToNodes sampleGraphListed
        ⟨9, sampleRelevantAll, 5⟩).AlwaysRelevantStreamingLevelActors = [(5, [7, 3])] :=
  ⟨by decide, (route_remove_absent sampleGraphListed ⟨9, sampleRelevantAll, 5⟩ (by decide)).2.2⟩

/-! ## The hierarchy lookup of the class-keyed map -/

theorem ResolveAbove_derived {F V : Type} [DecidableEq F] (m : TClassMap F V) (n : String)
    (d : Option (AActor F)) (s : UClass F) :
    TClassMap.ResolveAbove m (.derived n d s) = TClassMap.Resolve m s := rfl

theorem walk_fst {F V : Type} [DecidableEq F] (m : TClassMap F V) (O c : UClass F) :
    (TClassMap.GetClassInfoForNewClass_r m O c).1 = TClassMap.ResolveAbove m c := by
  induction c with
  | root n => rfl
  | derived n d s ih =>
    simp only [TClassMap.GetClassInfoForNewClass_r, TClassMap.ResolveAbove]
    cases h : TMap.Find m s with
    | some v => rfl
    | none => exact ih

theorem Get_fst {F V : Type} [DecidableEq F] (m : TClassMap F V) (c : UClass F) :
    (TClassMap.Get m c).1 = TClassMap.Resolve m c := by
  unfold TClassMap.Get TClassMap.Resolve
  cases h : TMap.Find m c with
  | some v => rfl
  | none => exact walk_fst m c c

theorem Get_snd {F V : Type} [DecidableEq F] (m : TClassMap F V) (c : UClass F) :
    (TClassMap.Get m c).2 = m ∨
      ∃ v, TMap.Find m c = none ∧ TClassMap.ResolveAbove m c = some v ∧
        (TClassMap.Get m c).2 = TMap.Add m c v := by
  unfold TClassMap.Get
  cases h : TMap.Find m c with
  | some v => left; rfl
  | none =>
    rcases walk_result m c c with ⟨_, h2⟩ | ⟨v, h1, h2⟩
    · left; exact h2
    · right
      refine ⟨v, rfl, ?_, h2⟩
      rw [← walk_fst m c c]; exact h1

theorem Resolve_Add_cached {F V : Type} [DecidableEq F] (m : TClassMap F V) (c : UClass F)
    (v : V) (hc : TMap.Find m c = none) (hv : TClassMap.ResolveAbove m c = some v)
    (d : UClass F) : TClassMap.Resolve (TMap.Add m c v) d = TClassMap.Resolve m d := by
  induction d with
  | root n =>
    unfold TClassMap.Resolve
    by_cases hd : c = UClass.root n
    · subst hd
      rw [Find_Add_self, hc]
      exact hv.symm
    · rw [Find_Add_other _ _ _ _ hd]
      rfl
  | derived n dob s ih =>
    unfold TClassMap.Resolve
    by_cases hd : c = UClass.derived n dob s
    · subst hd
      rw [Find_Add_self, hc]
      exact hv.symm
    · rw [Find_Add_other _ _ _ _ hd]
      cases TMap.Find m (UClass.derived n dob s) with
      | some w => rfl
      | none =>
        simp only [ResolveAbove_derived]
        exact ih

theorem Resolve_Get {F V : Type} [DecidableEq F] (m : TClassMap F V) (c d : UClass F) :
    TClassMap.Resolve (TClassMap.Get m c).2 d = TClassMap.Resolve m d := by
  rcases Get_snd m c with h | ⟨v, h1, h2, h3⟩
  · rw [h]
  · rw [h3]
    exact Resolve_Add_cached m c v h1 h2 d

theorem GetMappingPolicy_fst {F : Type} [DecidableEq F] (m : TClassMap F EClassRepPolicy)
    (c : UClass F) :
    (GetMappingPolicy m c).1 = (TClassMap.Resolve m c).getD EClassRepPolicy.NotRouted := by
  rw [GetMappingPolicy_eq, Get_fst]

theorem Resolve_of_Find_none {F V : Type} [DecidableEq F] (m : TClassMap F V) (n : String)
    (d : Option (AActor F)) (s : UClass F) (h : TMap.Find m (.derived n d s) = none) :
    TClassMap.Resolve m (.derived n d s) = TClassMap.Resolve m s := by
  conv_lhs => unfold TClassMap.Resolve
  rw [h]
  rfl

theorem Resolve_of_Find_some {F V : Type} [DecidableEq F] (m : TClassMap F V) (c : UClass F)
    (v : V) (h : TMap.Find m c = some v) : TClassMap.Resolve m c = some v := by
  unfold TClassMap.Resolve
  rw [h]

/-! ## The default loop keeps what the lookup resolves -/

theorem defaultInfoStep_none {F : Type} [DecidableEq F] (ops : FloatOps F)
    (E : List (UClass F)) (tick : F) (l : List (UClass F)) :
    l.foldl (defaultInfoStep ops E tick) none = none := by
  induction l with
  | nil => rfl
  | cons c rest ih => exact ih

theorem defaultInfoStep_Resolve {F : Type} [DecidableEq F] (ops : FloatOps F)
    (E : List (UClass F)) (tick : F) (g g2 : UMyReplicationGraph F) (c : UClass F)
    (h : defaultInfoStep ops E tick (some g) c = some g2) (d : UClass F) :
    TClassMap.Resolve g2.ClassRepPolicies d = TClassMap.Resolve g.ClassRepPolicies d := by
  unfold defaultInfoStep at h
  simp only at h
  split at h
  · injection h with h; rw [← h]
  · split at h
    · cases h
    · rename_i Policy Policies heq
      injection h with h
      rw [← h]
      simp only
      have : Policies = (TClassMap.Get g.ClassRepPolicies c).2 := by rw [heq]
      rw [this]
      exact Resolve_Get _ _ _

theorem defaultLoop_Resolve {F : Type} [DecidableEq F] (ops : FloatOps F)
    (E : List (UClass F)) (tick : F) (l : List (UClass F)) (g g2 : UMyReplicationGraph F)
    (h : l.foldl (defaultInfoStep ops E tick) (some g) = some g2) (d : UClass F) :
    TClassMap.Resolve g2.ClassRepPolicies d = TClassMap.Resolve g.ClassRepPolicies d := by
  induction l generalizing g with
  | nil =>
    simp only [List.foldl_nil] at h
    injection h with h; rw [h]
  | cons c rest ih =>
    simp only [List.foldl_cons] at h
    cases hstep : defaultInfoStep ops E tick (some g) c with
    | none => rw [hstep, defaultInfoStep_none] at h; cases h
    | some g1 =>
      rw [hstep] at h
      rw [ih g1 h, defaultInfoStep_Resolve ops E tick g g1 c hstep]

/-! ## The classification loop -/

theorem assignRule_policies {F : Type} [DecidableEq F] (g : UMyReplicationGraph F)
    (c : UClass F) (cdo : AActor F) :
    (assignRule g c cdo).ClassRepPolicies =
      match ruleFor cdo with
      | some p => TClassMap.Set g.ClassRepPolicies c p
      | none => g.ClassRepPolicies := by
  unfold assignRule ruleFor
  by_cases h1 : ShouldSpatialize cdo = true
  · simp [h1]
  · by_cases h2 : (cdo.bAlwaysRelevant && !cdo.bOnlyRelevantToOwner) = true
    · simp [h1, h2]
    · simp [h1, h2]

theorem classifyStep_policies {F : Type} [DecidableEq F]
    (st : UMyReplicationGraph F × List (UClass F)) (Name : String) (CDO : AActor F)
    (Super : UClass F) :
    (classifyStep st (.derived Name (some CDO) Super)).1.ClassRepPolicies =
      if CDO.bReplicates = true ∧ IsSyntheticName Name = false ∧
          TMap.Find st.1.ClassRepPolicies (.derived Name (some CDO) Super) = none ∧
          DiffersFromSuper CDO Super = true then
        match ruleFor CDO with
        | some p => TClassMap.Set st.1.ClassRepPolicies (.derived Name (some CDO) Super) p
        | none => st.1.ClassRepPolicies
      else st.1.ClassRepPolicies := by
  unfold classifyStep DiffersFromSuper
  by_cases h1 : CDO.bReplicates = false
  · simp [h1]
  · by_cases h2 : IsSyntheticName Name = true
    · simp [h1, h2]
    · simp only [h1, h2, if_false]
      have h1b : CDO.bReplicates = true := by simpa using h1
      have h2b : IsSyntheticName Name = false := by simpa using h2
      simp only [h1b, h2b, true_and, TClassMap.Contains]
      by_cases h3 : TMap.Find st.1.ClassRepPolicies (.derived Name (some CDO) Super) = none
      · simp only [h3, Option.isSome_none, Bool.false_eq_true, if_false, true_and]
        cases h4 : Super.GetDefaultObject with
        | none => simp [assignRule_policies]
        | some SuperCDO =>
          by_cases h5 : SameRelevancyFlags SuperCDO CDO = true
          · simp [h5]
          · simp only [h5, if_false]
            have h5b : SameRelevancyFlags SuperCDO CDO = false := by simpa using h5
            simp only [h5b, Bool.not_false, if_true]
            by_cases h6 : ShouldSpatialize CDO = false ∧ ShouldSpatialize SuperCDO = true
            · rw [if_pos h6]; simp [assignRule_policies]
            · rw [if_neg h6]; simp [assignRule_policies]
      · have h3b : (TMap.Find st.1.ClassRepPolicies (.derived Name (some CDO) Super)).isSome
            = true := by
          cases h : TMap.Find st.1.ClassRepPolicies (.derived Name (some CDO) Super) with
          | none => exact absurd h h3
          | some p => rfl
        simp [h3, h3b]

theorem classifyStep_Find_other {F : Type} [DecidableEq F]
    (st : UMyReplicationGraph F × List (UClass F)) (Class t : UClass F) (hne : Class ≠ t) :
    TMap.Find (classifyStep st Class).1.ClassRepPolicies t = TMap.Find st.1.ClassRepPolicies t := by
  cases Class with
  | root n => rfl
  | derived n d s =>
    cases d with
    | none => rfl
    | some cdo =>
      rw [classifyStep_policies]
      split
      · cases ruleFor cdo with
        | none => rfl
        | some p => exact Find_Add_other _ _ _ _ hne
      · rfl

theorem classifyStep_Find_self {F : Type} [DecidableEq F]
    (st : UMyReplicationGraph F × List (UClass F)) (Name : String) (CDO : AActor F)
    (Super : UClass F) :
    TMap.Find (classifyStep st (.derived Name (some CDO) Super)).1.ClassRepPolicies
        (.derived Name (some CDO) Super) =
      if CDO.bReplicates = true ∧ IsSyntheticName Name = false ∧
          TMap.Find st.1.ClassRepPolicies (.derived Name (some CDO) Super) = none ∧
          DiffersFromSuper CDO Super = true then ruleFor CDO
      else TMap.Find st.1.ClassRepPolicies (.derived Name (some CDO) Super) := by
  rw [classifyStep_policies]
  split
  · rename_i h
    cases hr : ruleFor CDO with
    | none => exact h.2.2.1
    | some p => exact Find_Add_self _ _ _
  · rfl

theorem classifyLoop_keeps_none {F : Type} [DecidableEq F] (l : List (UClass F))
    (st : UMyReplicationGraph F × List (UClass F)) (Name : String) (CDO : AActor F)
    (Super : UClass F) (hsame : DiffersFromSuper CDO Super = false)
    (h : TMap.Find st.1.ClassRepPolicies (.derived Name (some CDO) Super) = none) :
    TMap.Find (l.foldl classifyStep st).1.ClassRepPolicies (.derived Name (some CDO) Super) =
      none := by
  induction l generalizing st with
  | nil => exact h
  | cons c rest ih =>
    simp only [List.foldl_cons]
    apply ih
    by_cases hc : c = .derived Name (some CDO) Super
    · subst hc
      rw [classifyStep_Find_self, hsame]
      simpa using h
    · rw [classifyStep_Find_other st c _ hc]
      exact h

theorem classifyLoop_sets_rule {F : Type} [DecidableEq F] (l : List (UClass F))
    (st : UMyReplicationGraph F × List (UClass F)) (Name : String) (CDO : AActor F)
    (Super : UClass F) (hrep : CDO.bReplicates = true) (hname : IsSyntheticName Name = false)
    (hdiff : DiffersFromSuper CDO Super = true)
    (hinv : TMap.Find st.1.ClassRepPolicies (.derived Name (some CDO) Super) = none ∨
      TMap.Find st.1.ClassRepPolicies (.derived Name (some CDO) Super) = ruleFor CDO)
    (hmem : .derived Name (some CDO) Super ∈ l ∨
      TMap.Find st.1.ClassRepPolicies (.derived Name (some CDO) Super) = ruleFor CDO) :
    TMap.Find (l.foldl classifyStep st).1.ClassRepPolicies (.derived Name (some CDO) Super) =
      ruleFor CDO := by
  induction l generalizing st with
  | nil =>
    rcases hmem with h | h
    · simp at h
    · exact h
  | cons c rest ih =>
    simp only [List.foldl_cons]
    by_cases hc : c = .derived Name (some CDO) Super
    · subst hc
      have hself : TMap.Find (classifyStep st (.derived Name (some CDO) Super)).1.ClassRepPolicies
          (.derived Name (some CDO) Super) = ruleFor CDO := by
        rw [classifyStep_Find_self]
        rcases hinv with h | h
        · simp [hrep, hname, hdiff, h]
        · split
          · rfl
          · exact h
      exact ih _ (Or.inr hself) (Or.inr hself)
    · have hother := classifyStep_Find_other st c _ hc
      apply ih
      · rw [hother]; exact hinv
      · rcases hmem with h | h
        · left
          rcases List.mem_cons.mp h with h | h
          · exact absurd h.symm hc
          · exact h
        · right; rw [hother]; exact h

theorem seedPolicies_Find_other {F : Type} [DecidableEq F] (env : StaticClasses F)
    (m : TClassMap F EClassRepPolicy) (t : UClass F) (ht : t ∉ seededClasses env) :
    TMap.Find (seedPolicies env m) t = TMap.Find m t := by
  simp only [seededClasses, List.mem_cons, List.mem_singleton, not_or, List.mem_nil_iff,
    or_false] at ht
  obtain ⟨h1, h2, h3, h4, h5, h6⟩ := ht
  unfold seedPolicies TClassMap.Set
  simp only
  rw [Find_Add_other _ _ _ _ (Ne.symm h6), Find_Add_other _ _ _ _ (Ne.symm h5),
    Find_Add_other _ _ _ _ (Ne.symm h4), Find_Add_other _ _ _ _ (Ne.symm h3),
    Find_Add_other _ _ _ _ (Ne.symm h2), Find_Add_other _ _ _ _ (Ne.symm h1)]

theorem Init_Resolve {F : Type} [DecidableEq F] (ops : FloatOps F) (env : StaticClasses F)
    (AllClasses : List (UClass F)) (tick : F) (g g2 : UMyReplicationGraph F)
    (hinit : InitGlobalActorClassSettings ops env AllClasses tick g = some g2) (d : UClass F) :
    TClassMap.Resolve g2.ClassRepPolicies d =
      TClassMap.Resolve (AllClasses.foldl classifyStep
        ({ g with ClassRepPolicies := seedPolicies env g.ClassRepPolicies }, [])).1.ClassRepPolicies
        d := by
  unfold InitGlobalActorClassSettings at hinit
  exact defaultLoop_Resolve ops _ tick _ _ g2 hinit d

/-! ## Policies after the class settings pass -/

/-- A class that is not one of the six classes given an explicit rule, had
no rule before the call and whose super class default object is an actor with
the same four relevancy flags resolves, after `InitGlobalActorClassSettings`,
to the policy of its super class. -/
theorem policy_inherited_of_not_seeded {F : Type} [DecidableEq F] (ops : FloatOps F)
    (env : StaticClasses F) (AllClasses : List (UClass F)) (NetServerMaxTickRate : F)
    (g g2 : UMyReplicationGraph F) (Name : String) (ActorCDO SuperCDO : AActor F)
    (SuperClass : UClass F)
    (hinit : InitGlobalActorClassSettings ops env AllClasses NetServerMaxTickRate g = some g2)
    (hnew : TMap.Find g.ClassRepPolicies (.derived Name (some ActorCDO) SuperClass) = none)
    (hsuper : SuperClass.GetDefaultObject = some SuperCDO)
    (hsame : SameRelevancyFlags SuperCDO ActorCDO = true)
    (hseed : .derived Name (some ActorCDO) SuperClass ∉ seededClasses env) :
    g2.PolicyOf (.derived Name (some ActorCDO) SuperClass) = g2.PolicyOf SuperClass := by
  unfold UMyReplicationGraph.PolicyOf
  rw [GetMappingPolicy_fst, GetMappingPolicy_fst,
    Init_Resolve ops env AllClasses NetServerMaxTickRate g g2 hinit,
    Init_Resolve ops env AllClasses NetServerMaxTickRate g g2 hinit]
  have hdiff : DiffersFromSuper ActorCDO SuperClass = false := by
    unfold DiffersFromSuper
    rw [hsuper]
    simp [hsame]
  have hnone := classifyLoop_keeps_none AllClasses
    ({ g with ClassRepPolicies := seedPolicies env g.ClassRepPolicies }, []) Name ActorCDO
    SuperClass hdiff (by rw [seedPolicies_Find_other env _ _ hseed]; exact hnew)
  rw [Resolve_of_Find_none _ _ _ _ hnone]

theorem SameRelevancyFlags_replicates {F : Type} (SuperCDO ActorCDO : AActor F)
    (h : SameRelevancyFlags SuperCDO ActorCDO = true) :
    SuperCDO.bReplicates = ActorCDO.bReplicates := by
  unfold SameRelevancyFlags at h
  simp only [Bool.and_eq_true, beq_iff_eq] at h
  exact h.1.1.1

/-- C6: with the six classes given an explicit rule deriving, as in the
sources, from a class that is not replicated (`AActor`), after
`InitGlobalActorClassSettings` every replicated class whose super class
default object is an actor with the same four relevancy flags resolves to the
policy of its super class; this covers every such class, the classes given
an explicit rule included (the pass runs on a graph without rule for the
class). -/
theorem policy_inherited_from_parent {F : Type} [DecidableEq F] (ops : FloatOps F)
    (env : StaticClasses F) (AllClasses : List (UClass F)) (NetServerMaxTickRate : F)
    (g g2 : UMyReplicationGraph F) (Name : String) (ActorCDO SuperCDO : AActor F)
    (SuperClass : UClass F)
    (hinit : InitGlobalActorClassSettings ops env AllClasses NetServerMaxTickRate g = some g2)
    (hnew : TMap.Find g.ClassRepPolicies (.derived Name (some ActorCDO) SuperClass) = none)
    (hseeded : ∀ c ∈ seededClasses env, SuperClassReplicates c = false)
    (hrep : ActorCDO.bReplicates = true)
    (hsuper : SuperClass.GetDefaultObject = some SuperCDO)
    (hsame : SameRelevancyFlags SuperCDO ActorCDO = true) :
    g2.PolicyOf (.derived Name (some ActorCDO) SuperClass) = g2.PolicyOf SuperClass := by
  apply policy_inherited_of_not_seeded ops env AllClasses NetServerMaxTickRate g g2 Name
    ActorCDO SuperCDO SuperClass hinit hnew hsuper hsame
  intro hmem
  have h := hseeded _ hmem
  simp only [SuperClassReplicates, UClass.GetSuperClass, hsuper] at h
  rw [SameRelevancyFlags_replicates _ _ hsame, hrep] at h
  cases h

/-- Witness for C6: the six classes with an explicit rule derive from the base
actor class, which is not replicated; `FastProjectile` shares the flags of
its replicated super class `Projectile` and resolves to the same policy. -/
theorem policy_inherited_from_parent_witness :
    (∀ c ∈ seededClasses sampleEnv, SuperClassReplicates c = false) ∧
    ∃ g2, InitGlobalActorClassSettings exactOps sampleEnv
        (sampleClasses ++ [sampleProjectile, sampleFastProjectile]) ⟨30, 1⟩ sampleFreshGraph =
          some g2 ∧
      g2.PolicyOf sampleFastProjectile = g2.PolicyOf sampleProjectile ∧
      g2.PolicyOf sampleFastProjectile = EClassRepPolicy.Spatialize_Dynamic := by
  refine ⟨by decide, ?_⟩
  cases h : InitGlobalActorClassSettings exactOps sampleEnv
      (sampleClasses ++ [sampleProjectile, sampleFastProjectile]) ⟨30, 1⟩ sampleFreshGraph with
  | none => revert h; decide
  | some g2 =>
    refine ⟨g2, rfl, ?_, ?_⟩
    · exact policy_inherited_from_parent exactOps sampleEnv _ ⟨30, 1⟩ sampleFreshGraph g2
        "FastProjectile" _ ⟨true, false, false, false, ⟨225000000, 1⟩, ⟨10, 1⟩⟩ sampleProjectile
        h (by decide) (by decide) (by decide) (by decide) (by decide)
    · have : (InitGlobalActorClassSettings exactOps sampleEnv
          (sampleClasses ++ [sampleProjectile, sampleFastProjectile]) ⟨30, 1⟩
          sampleFreshGraph).map (fun g => g.PolicyOf sampleFastProjectile) =
          some EClassRepPolicy.Spatialize_Dynamic := by decide
      rw [h] at this
      exact Option.some.inj this

/-- C7, amended: after `InitGlobalActorClassSettings`, an enumerated class that
is replicated, not synthetic, without explicit rule and not sharing all four
flags with an actor super class has the policy `Spatialize_Dynamic` when
`ShouldSpatialize` holds, else `RelevantAllConnections` when it is always
relevant and not relevant to its owner only, and else the policy its super
class resolves to (`NotRouted` when no ancestor has a rule). -/
theorem classified_policy {F : Type} [DecidableEq F] (ops : FloatOps F)
    (env : StaticClasses F) (AllClasses : List (UClass F)) (NetServerMaxTickRate : F)
    (g g2 : UMyReplicationGraph F) (Name : String) (ActorCDO : AActor F)
    (SuperClass : UClass F)
    (hinit : InitGlobalActorClassSettings ops env AllClasses NetServerMaxTickRate g = some g2)
    (hnew : TMap.Find g.ClassRepPolicies (.derived Name (some ActorCDO) SuperClass) = none)
    (hmem : .derived Name (some ActorCDO) SuperClass ∈ AllClasses)
    (hrep : ActorCDO.bReplicates = true)
    (hname : IsSyntheticName Name = false)
    (hseed : .derived Name (some ActorCDO) SuperClass ∉ seededClasses env)
    (hdiff : DiffersFromSuper ActorCDO SuperClass = true) :
    g2.PolicyOf (.derived Name (some ActorCDO) SuperClass) =
      if ShouldSpatialize ActorCDO = true then EClassRepPolicy.Spatialize_Dynamic
      else if (ActorCDO.bAlwaysRelevant && !ActorCDO.bOnlyRelevantToOwner) = true then
        EClassRepPolicy.RelevantAllConnections
      else g2.PolicyOf SuperClass := by
  unfold UMyReplicationGraph.PolicyOf
  rw [GetMappingPolicy_fst, GetMappingPolicy_fst,
    Init_Resolve ops env AllClasses NetServerMaxTickRate g g2 hinit,
    Init_Resolve ops env AllClasses NetServerMaxTickRate g g2 hinit]
  have hfind := classifyLoop_sets_rule AllClasses
    ({ g with ClassRepPolicies := seedPolicies env g.ClassRepPolicies }, []) Name ActorCDO
    SuperClass hrep hname hdiff
    (Or.inl (by rw [seedPolicies_Find_other env _ _ hseed]; exact hnew)) (Or.inl hmem)
  unfold ruleFor at hfind
  by_cases h1 : ShouldSpatialize ActorCDO = true
  · rw [if_pos h1] at hfind ⊢
    rw [Resolve_of_Find_some _ _ _ hfind]
    rfl
  · rw [if_neg h1] at hfind ⊢
    by_cases h2 : (ActorCDO.bAlwaysRelevant && !ActorCDO.bOnlyRelevantToOwner) = true
    · rw [if_pos h2] at hfind ⊢
      rw [Resolve_of_Find_some _ _ _ hfind]
      rfl
    · rw [if_neg h2] at hfind ⊢
      rw [Resolve_of_Find_none _ _ _ _ hfind]

/-- Witness for C7, amended: `OwnedProjectile` is relevant to its owner only,
gets no rule of its own and resolves to the policy of `Projectile`. -/
theorem classified_policy_witness :
    ∃ g2, InitGlobalActorClassSettings exactOps sampleEnv
        (sampleClasses ++ [sampleProjectile, sampleOwnerOnly]) ⟨30, 1⟩ sampleFreshGraph =
          some g2 ∧
      g2.PolicyOf sampleOwnerOnly = g2.PolicyOf sampleProjectile := by
  cases h : InitGlobalActorClassSettings exactOps sampleEnv
      (sampleClasses ++ [sampleProjectile, sampleOwnerOnly]) ⟨30, 1⟩ sampleFreshGraph with
  | none => revert h; decide
  | some g2 =>
    exact ⟨g2, rfl, classified_policy exactOps sampleEnv _ ⟨30, 1⟩ sampleFreshGraph g2
      "OwnedProjectile" ⟨true, false, true, false, ⟨225000000, 1⟩, ⟨10, 1⟩⟩ sampleProjectile
      h (by decide) (by decide) (by decide) (by decide) (by decide) (by decide)⟩

/-- Counterexample to C7 as stated: the replicated class `OwnedProjectile`,
relevant to its owner only, has no explicit rule and differs from its super
class `Projectile`; it is neither spatializable nor always relevant, yet its
policy after the pass is `Spatialize_Dynamic`, inherited from `Projectile`. -/
theorem owner_only_child_not_NotRouted :
    ShouldSpatialize (⟨true, false, true, false, ⟨225000000, 1⟩, ⟨10, 1⟩⟩ : AActor ExactFloat)
        = false ∧
      IsSyntheticName "OwnedProjectile" = false ∧
      sampleOwnerOnly ∉ seededClasses sampleEnv ∧
      DiffersFromSuper ⟨true, false, true, false, ⟨225000000, 1⟩, ⟨10, 1⟩⟩ sampleProjectile
        = true ∧
      (InitGlobalActorClassSettings exactOps sampleEnv
        (sampleClasses ++ [sampleProjectile, sampleOwnerOnly]) ⟨30, 1⟩ sampleFreshGraph).map
          (fun g => g.PolicyOf sampleOwnerOnly) = some EClassRepPolicy.Spatialize_Dynamic := by
  decide

/-! ## Replication periods and explicit settings -/

/-- C8, the code at the failing input: for every arithmetic the period stored
by `InitClassReplicationInfo` is the maximum of 1 and the converted quotient,
narrowed to the `uint16` field, and the configured dynamic period is stored
the same way; with tick rate 30 and update rate `30 / 65536` the maximum is
65536 and the stored period is 0, and so is a configured period of 65536. -/
theorem replication_period_stored_zero :
    (∀ (F : Type) (ops : FloatOps F) (Info : FClassReplicationInfo F) (Name : String)
        (CDO : AActor F) (SuperClass : UClass F) (bSpatilize : Bool) (ServerMaxTickRate : F),
        (InitClassReplicationInfo ops Info (.derived Name (some CDO) SuperClass) bSpatilize
          ServerMaxTickRate).ReplicationPeriodFrame =
          max (ops.CastUInt32 (ops.RoundToFloat
            (ops.Div ServerMaxTickRate CDO.NetUpdateFrequency))) 1 % 2 ^ 16) ∧
      (∀ (F : Type) (ops : FloatOps F) (g : UMyReplicationGraph F),
        (DynamicRepActorInfo ops g).ReplicationPeriodFrame =
          max 1 (ops.CastUInt32 g.ActorReplicationPeriodForDynamic) % 2 ^ 16) ∧
      exactOps.CastUInt32 (exactOps.RoundToFloat (exactOps.Div ⟨30, 1⟩ ⟨30, 65536⟩)) = 65536 ∧
      (InitClassReplicationInfo exactOps (FClassReplicationInfo.default exactOps) sampleSlowRate
        true ⟨30, 1⟩).ReplicationPeriodFrame = 0 ∧
      (DynamicRepActorInfo exactOps sampleGraphLongPeriod).ReplicationPeriodFrame = 0 := by
  refine ⟨?_, ?_, by decide, by decide, by decide⟩
  · intro F ops Info Name CDO SuperClass bSpatilize ServerMaxTickRate
    simp only [InitClassReplicationInfo, UClass.GetDefaultObject, StorePeriodFrame]
  · intro F ops g
    simp only [DynamicRepActorInfo, StorePeriodFrame]

/-- C9, the code at the failing input: for every arithmetic the stored period
is the maximum of 1 and the converted, rounded quotient of the tick rate by
the update rate (narrowed to the `uint16` field), so with update rate zero
the quotient by zero is evaluated; under the sample arithmetic (quotient by
zero infinite, saturating conversion) the period stored for tick rate 30 is
65535, not 1. -/
theorem zero_update_rate_period :
    (∀ (F : Type) (ops : FloatOps F) (Info : FClassReplicationInfo F) (Name : String)
        (CDO : AActor F) (SuperClass : UClass F) (bSpatilize : Bool) (ServerMaxTickRate : F),
        (InitClassReplicationInfo ops Info (.derived Name (some CDO) SuperClass) bSpatilize
          ServerMaxTickRate).ReplicationPeriodFrame =
          max (ops.CastUInt32 (ops.RoundToFloat
            (ops.Div ServerMaxTickRate CDO.NetUpdateFrequency))) 1 % 2 ^ 16) ∧
      exactOps.Div ⟨30, 1⟩ ⟨0, 1⟩ = ⟨30, 0⟩ ∧
      (InitClassReplicationInfo exactOps (FClassReplicationInfo.default exactOps) sampleZeroRate
        true ⟨30, 1⟩).ReplicationPeriodFrame = 65535 := by
  refine ⟨?_, by decide, by decide⟩
  intro F ops Info Name CDO SuperClass bSpatilize ServerMaxTickRate
  simp only [InitClassReplicationInfo, UClass.GetDefaultObject, StorePeriodFrame]

/-- C10, the code at the failing input: on the sample classes the settings
stored for `AStaticRepActor` and `ADormantRepActor` when the pass returns are
the ones the default loop derives from the class default object (cull
distance squared 225000000, period 3), not the configured ones (16000000
with period 5, and 9000000 with period 4), while the settings of `APawn` and
`ADynamicRepActor` are the configured ones. -/
theorem static_and_dormant_settings_overwritten :
    StaticInfo exactOps sampleFreshGraph = ⟨⟨16000000, 1⟩, 5⟩ ∧
      DormantInfo exactOps sampleFreshGraph = ⟨⟨9000000, 1⟩, 4⟩ ∧
      (InitGlobalActorClassSettings exactOps sampleEnv sampleClasses ⟨30, 1⟩ sampleFreshGraph).map
        (fun g => (TMap.Find g.GlobalActorReplicationInfoMap sampleEnv.AStaticRepActor,
          TMap.Find g.GlobalActorReplicationInfoMap sampleEnv.ADormantRepActor,
          TMap.Find g.GlobalActorReplicationInfoMap sampleEnv.APawn,
          TMap.Find g.GlobalActorReplicationInfoMap sampleEnv.ADynamicRepActor)) =
        some (some ⟨⟨225000000, 1⟩, 3⟩, some ⟨⟨225000000, 1⟩, 3⟩,
          some (PawnClassInfo exactOps sampleFreshGraph),
          some (DynamicRepActorInfo exactOps sampleFreshGraph)) := by
  decide

/-! ## Levels the gather keeps and lists it emits -/

theorem RemoveAtSwap_mem_of_ne {α : Type} (xs : List α) (Idx : Nat) (s x : α)
    (hget : xs[Idx]? = some s) (hx : x ∈ xs) (hne : x ≠ s) : x ∈ RemoveAtSwap xs Idx := by
  rw [RemoveAtSwap_at xs Idx s hget]
  obtain ⟨hsplit, _⟩ := split_at_index xs Idx s hget
  rw [hsplit] at hx
  simp only [List.mem_append, List.mem_cons] at hx ⊢
  rcases hx with h | h | h
  · exact Or.inl h
  · exact absurd h hne
  · exact Or.inr ((swapTail_perm _).mem_iff.mpr h)

theorem KeptLevel_not_removed (LA : TMap FName (List FActorRepListType))
    (m : FPerConnectionActorInfoMap) (x : FName) (hk : KeptLevel LA m x)
    (RepList : List FActorRepListType) (hfind : TMap.Find LA x = some RepList)
    (hpos : RepList.length > 0) : (allDormantLoop RepList m).1 ≠ true := by
  intro hall
  obtain ⟨l, hl, hk⟩ := hk
  rw [hfind] at hl
  injection hl with hl
  subst hl
  rcases hk with hk | ⟨a, ha, hd⟩
  · rw [hk] at hpos; simp at hpos
  · have := (allDormantLoop_true RepList m).mp hall a ha
    rw [hd] at this; cases this

theorem gatherLoop_keeps (LA : TMap FName (List FActorRepListType)) (n : Nat)
    (Levels : List FName) (Params : FConnectionGatherActorListParameters)
    (x : FName) (hx : x ∈ Levels) (hk : KeptLevel LA Params.ActorInfoMap x) :
    x ∈ (gatherLoop LA n Levels Params).1 := by
  induction n generalizing Levels Params with
  | zero => exact hx
  | succ Idx ih =>
    simp only [gatherLoop]
    split
    · exact hx
    · rename_i s hget
      split
      · rename_i hnone
        apply ih _ _ _ hk
        apply RemoveAtSwap_mem_of_ne Levels Idx s x hget hx
        rintro rfl
        obtain ⟨l, hl, _⟩ := hk
        rw [hnone] at hl; cases hl
      · rename_i RepList hfind
        split
        · rename_i hpos
          have hk2 : KeptLevel LA (allDormantLoop RepList Params.ActorInfoMap).2 x :=
            KeptLevel_congr LA _ _ (fun b => (allDormantLoop_dormant _ _ b).symm) x hk
          split
          · rename_i hall
            apply ih _ _ _ hk2
            apply RemoveAtSwap_mem_of_ne Levels Idx s x hget hx
            rintro rfl
            exact KeptLevel_not_removed LA _ x hk RepList hfind hpos hall
          · exact ih _ _ hx hk2
        · exact ih _ _ hx hk

theorem gatherLoop_emits (LA : TMap FName (List FActorRepListType)) (n : Nat)
    (Levels : List FName) (Params : FConnectionGatherActorListParameters)
    (hn : n ≤ Levels.length) (x : FName) (l : List FActorRepListType)
    (hx : x ∈ Levels.take n) (hfind : TMap.Find LA x = some l)
    (hawake : ∃ a ∈ l, dormantOnConnection Params.ActorInfoMap a = false) :
    ∃ added, (gatherLoop LA n Levels Params).2.OutGatheredReplicationLists =
        Params.OutGatheredReplicationLists ++ added ∧ l ∈ added := by
  induction n generalizing Levels Params with
  | zero => simp at hx
  | succ Idx ih =>
    have hk : KeptLevel LA Params.ActorInfoMap x := ⟨l, hfind, Or.inr hawake⟩
    simp only [gatherLoop]
    split
    · rename_i hget
      have hle : Levels.length ≤ Idx := List.getElem?_eq_none_iff.mp hget
      omega
    · rename_i s hget
      have hsw := RemoveAtSwap_at Levels Idx s hget
      obtain ⟨hsplit, hlen⟩ := split_at_index Levels Idx s hget
      have hlen2 : Idx ≤ (RemoveAtSwap Levels Idx).length := by
        rw [hsw, List.length_append, hlen]; omega
      have htk : (RemoveAtSwap Levels Idx).take Idx = Levels.take Idx := by
        rw [hsw, List.take_append_of_le_length (by rw [hlen]),
            List.take_of_length_le (by rw [hlen])]
      have hcases : x ∈ Levels.take Idx ∨ x = s := by
        rw [List.take_succ, hget] at hx
        simpa using hx
      split
      · rename_i hnone
        rcases hcases with h | h
        · exact ih (RemoveAtSwap Levels Idx) Params hlen2 (by rw [htk]; exact h) hawake
        · subst h; rw [hnone] at hfind; cases hfind
      · rename_i RepList hfindS
        split
        · rename_i hpos
          have hawake2 : ∃ a ∈ l,
              dormantOnConnection (allDormantLoop RepList Params.ActorInfoMap).2 a = false := by
            obtain ⟨a, ha, hd⟩ := hawake
            exact ⟨a, ha, by rw [allDormantLoop_dormant]; exact hd⟩
          split
          · rename_i hall
            rcases hcases with h | h
            · exact ih (RemoveAtSwap Levels Idx)
                { Params with ActorInfoMap := (allDormantLoop RepList Params.ActorInfoMap).2 }
                hlen2 (by rw [htk]; exact h) hawake2
            · subst h
              exact absurd hall (KeptLevel_not_removed LA _ x hk RepList hfindS hpos)
          · rcases hcases with h | h
            · obtain ⟨added, h1, h2⟩ := ih Levels
                { ActorInfoMap := (allDormantLoop RepList Params.ActorInfoMap).2
                  OutGatheredReplicationLists := Params.OutGatheredReplicationLists ++ [RepList] }
                (by omega) h hawake2
              exact ⟨RepList :: added, by rw [h1]; simp, List.mem_cons_of_mem _ h2⟩
            · subst h
              rw [hfindS] at hfind
              injection hfind with hfind
              subst hfind
              obtain ⟨added, h1, _⟩ := gatherLoop_out LA Idx Levels
                { ActorInfoMap := (allDormantLoop RepList Params.ActorInfoMap).2
                  OutGatheredReplicationLists := Params.OutGatheredReplicationLists ++ [RepList] }
                (by omega)
              exact ⟨RepList :: added, by rw [h1]; simp, List.mem_cons_self _ _⟩
        · rename_i hzero
          rcases hcases with h | h
          · exact ih Levels Params (by omega) h hawake
          · subst h
            rw [hfindS] at hfind
            injection hfind with hfind
            subst hfind
            obtain ⟨a, ha, _⟩ := hawake
            have : RepList = [] := by simpa using hzero
            rw [this] at ha; cases ha

/-! ## Absent and emptied lists, world reset, dormancy -/

/-- C11, amended: for a tracked level the gather never fails; when the shared
list of the level is absent the level is dropped, when the list is present
and empty the level stays tracked; in both cases nothing is emitted for it,
every list the gather appends being the non-empty shared list of a tracked
level. -/
theorem gather_absent_or_empty_level (LevelActors : TMap FName (List FActorRepListType))
    (Node : UDAReplicationGraphNode_AlwaysRelevant_ForConnection)
    (Params : FConnectionGatherActorListParameters) (StreamingLevel : FName)
    (htracked : StreamingLevel ∈ Node.AlwaysRelevantStreamingLevels) :
    (TMap.Find LevelActors StreamingLevel = none →
      StreamingLevel ∉
        (GatherActorListsForConnection LevelActors Node Params).1.AlwaysRelevantStreamingLevels) ∧
    (TMap.Find LevelActors StreamingLevel = some [] →
      StreamingLevel ∈
        (GatherActorListsForConnection LevelActors Node Params).1.AlwaysRelevantStreamingLevels) ∧
    (GatherActorListsForConnection LevelActors Node Params).2.OutGatheredReplicationLists.take
        Params.OutGatheredReplicationLists.length = Params.OutGatheredReplicationLists ∧
    ∀ l ∈ (GatherActorListsForConnection LevelActors Node Params).2.OutGatheredReplicationLists.drop
        Params.OutGatheredReplicationLists.length,
      l ≠ [] ∧ ∃ y ∈ Node.AlwaysRelevantStreamingLevels, TMap.Find LevelActors y = some l := by
  unfold GatherActorListsForConnection
  simp only
  refine ⟨?_, ?_, ?_⟩
  · intro hnone hmem
    rcases gatherLoop_levels LevelActors _ _ Params (Nat.le_refl _) _ hmem with h | ⟨_, l, hl, _⟩
    · simp at h
    · rw [hnone] at hl; cases hl
  · intro hempty
    exact gatherLoop_keeps LevelActors _ _ Params _ htracked ⟨[], hempty, Or.inl rfl⟩
  · obtain ⟨added, h1, h2⟩ := gatherLoop_out LevelActors _
      Node.AlwaysRelevantStreamingLevels Params (Nat.le_refl _)
    rw [h1]
    refine ⟨by simp, ?_⟩
    simp only [List.drop_left]
    intro l hl
    obtain ⟨⟨y, hy, hf⟩, hne, _⟩ := h2 l hl
    exact ⟨hne, y, by simpa using hy, hf⟩

/-- Witness for C11, amended: level 5 has no shared list and is dropped,
level 6 has an awake actor and is emitted. -/
theorem gather_absent_or_empty_level_witness :
    (5 ∉ (GatherActorListsForConnection [(6, [3])] ⟨[5, 6]⟩
        ⟨[], []⟩).1.AlwaysRelevantStreamingLevels) ∧
      (GatherActorListsForConnection [(6, [3])] ⟨[5, 6]⟩ ⟨[], []⟩).2.OutGatheredReplicationLists
        = [[3]] :=
  ⟨(gather_absent_or_empty_level [(6, [3])] ⟨[5, 6]⟩ ⟨[], []⟩ 5 (by decide)).1 (by decide),
    by decide⟩

/-- Counterexample to C11 as stated: after the router removed actor 7, the only
actor of level 5, the shared list of level 5 is present and empty; the gather
emits nothing and level 5 is still tracked. -/
theorem gather_keeps_emptied_level :
    (RouteRemoveNetworkActorToNodes sampleGraphSingle
        sampleLevelActor).AlwaysRelevantStreamingLevelActors = [(5, [])] ∧
      GatherActorListsForConnection (RouteRemoveNetworkActorToNodes sampleGraphSingle
        sampleLevelActor).AlwaysRelevantStreamingLevelActors ⟨[5]⟩ ⟨[], []⟩ =
        (⟨[5]⟩, ⟨[], []⟩) := by
  decide

/-- C12: whatever the base class call does, after
`UMyReplicationGraph::ResetGameWorldState` the shared level map is empty and
every node of this repository held by a connection, active or pending,
tracks no level; the connections and their nodes are those the base class
call left, one for one. -/
theorem reset_clears_levels {F : Type} (Super : UMyReplicationGraph F → UMyReplicationGraph F)
    (g : UMyReplicationGraph F) :
    (UMyReplicationGraph.ResetGameWorldState Super g).AlwaysRelevantStreamingLevelActors = [] ∧
    (∀ Connection ∈ (UMyReplicationGraph.ResetGameWorldState Super g).Connections ++
        (UMyReplicationGraph.ResetGameWorldState Super g).PendingConnections,
      ∀ Node, UReplicationGraphNode.AlwaysRelevant_ForConnection Node ∈
          Connection.ConnectionGraphNodes → Node.AlwaysRelevantStreamingLevels = []) ∧
    (UMyReplicationGraph.ResetGameWorldState Super g).Connections.map
        (fun c => c.ConnectionGraphNodes.length) =
      (Super g).Connections.map (fun c => c.ConnectionGraphNodes.length) ∧
    (UMyReplicationGraph.ResetGameWorldState Super g).PendingConnections.map
        (fun c => c.ConnectionGraphNodes.length) =
      (Super g).PendingConnections.map (fun c => c.ConnectionGraphNodes.length) := by
  have hnode : ∀ (c : UNetReplicationGraphConnection) Node,
      UReplicationGraphNode.AlwaysRelevant_ForConnection Node ∈
        (resetConnection c).ConnectionGraphNodes → Node.AlwaysRelevantStreamingLevels = [] := by
    intro c Node hmem
    simp only [resetConnection, List.mem_map] at hmem
    obtain ⟨n, _, hn⟩ := hmem
    cases n with
    | AlwaysRelevant_ForConnection N0 =>
      simp only [resetConnectionNode, UReplicationGraphNode.AlwaysRelevant_ForConnection.injEq] at hn
      rw [← hn]; rfl
    | Other Id => simp [resetConnectionNode] at hn
  unfold UMyReplicationGraph.ResetGameWorldState
  refine ⟨rfl, ?_, ?_, ?_⟩
  · intro Connection hmem Node hN
    simp only [List.mem_append, List.mem_map] at hmem
    rcases hmem with ⟨c, _, rfl⟩ | ⟨c, _, rfl⟩
    · exact hnode c Node hN
    · exact hnode c Node hN
  · simp [resetConnection, Function.comp_def]
  · simp [resetConnection, Function.comp_def]

/-- C13: a level whose non-empty shared list was all dormant is dropped by a
gather; once an actor of the list is no longer dormant on the connection and
`OnClientLevelVisibilityAdd` is called for the level, the next gather keeps
the level tracked and appends its list to the output. -/
theorem gather_reemits_after_visibility (LevelActors : TMap FName (List FActorRepListType))
    (Node : UDAReplicationGraphNode_AlwaysRelevant_ForConnection)
    (Params NextParams : FConnectionGatherActorListParameters)
    (StreamingLevel : FName) (RepList : List FActorRepListType)
    (hfind : TMap.Find LevelActors StreamingLevel = some RepList)
    (hne : RepList ≠ [])
    (hdormant : ∀ a ∈ RepList, dormantOnConnection Params.ActorInfoMap a = true)
    (hawake : ∃ a ∈ RepList, dormantOnConnection NextParams.ActorInfoMap a = false) :
    StreamingLevel ∉
        (GatherActorListsForConnection LevelActors Node Params).1.AlwaysRelevantStreamingLevels ∧
    StreamingLevel ∈
        (GatherActorListsForConnection LevelActors
          (OnClientLevelVisibilityAdd (GatherActorListsForConnection LevelActors Node Params).1
            StreamingLevel) NextParams).1.AlwaysRelevantStreamingLevels ∧
    RepList ∈
        (GatherActorListsForConnection LevelActors
          (OnClientLevelVisibilityAdd (GatherActorListsForConnection LevelActors Node Params).1
            StreamingLevel) NextParams).2.OutGatheredReplicationLists.drop
          NextParams.OutGatheredReplicationLists.length := by
  refine ⟨?_, ?_, ?_⟩
  · unfold GatherActorListsForConnection
    simp only
    intro hmem
    rcases gatherLoop_levels LevelActors _ _ Params (Nat.le_refl _) _ hmem with h | ⟨_, l, hl, hk⟩
    · simp at h
    · rw [hfind] at hl
      injection hl with hl
      subst hl
      rcases hk with hk | ⟨a, ha, hd⟩
      · exact hne hk
      · rw [hdormant a ha] at hd; cases hd
  · generalize (GatherActorListsForConnection LevelActors Node Params).1 = N1
    unfold GatherActorListsForConnection OnClientLevelVisibilityAdd
    simp only
    exact gatherLoop_keeps LevelActors _ _ NextParams _ (by simp)
      ⟨RepList, hfind, Or.inr hawake⟩
  · generalize (GatherActorListsForConnection LevelActors Node Params).1 = N1
    unfold GatherActorListsForConnection OnClientLevelVisibilityAdd
    simp only
    obtain ⟨added, h1, h2⟩ := gatherLoop_emits LevelActors
      (N1.AlwaysRelevantStreamingLevels ++ [StreamingLevel]).length
      (N1.AlwaysRelevantStreamingLevels ++ [StreamingLevel]) NextParams (Nat.le_refl _)
      StreamingLevel RepList (by rw [List.take_length]; simp) hfind hawake
    rw [h1]
    simpa using h2

/-- Witness for C13: level 5 ("Cave_01") holds actors 1 and 2, both dormant at
the first gather; actor 2 has woken up at the second one. -/
theorem gather_reemits_after_visibility_witness :
    (GatherActorListsForConnection [(5, [1, 2])] ⟨[5]⟩
        ⟨[(1, ⟨true⟩), (2, ⟨true⟩)], []⟩).1.AlwaysRelevantStreamingLevels = [] ∧
      5 ∈ (GatherActorListsForConnection [(5, [1, 2])]
        (OnClientLevelVisibilityAdd (GatherActorListsForConnection [(5, [1, 2])] ⟨[5]⟩
          ⟨[(1, ⟨true⟩), (2, ⟨true⟩)], []⟩).1 5)
        ⟨[(1, ⟨true⟩), (2, ⟨false⟩)], []⟩).1.AlwaysRelevantStreamingLevels :=
  ⟨by decide,
    (gather_reemits_after_visibility [(5, [1, 2])] ⟨[5]⟩ ⟨[(1, ⟨true⟩), (2, ⟨true⟩)], []⟩
      ⟨[(1, ⟨true⟩), (2, ⟨false⟩)], []⟩ 5 [1, 2] (by decide) (by decide) (by decide)
      (by decide)).2.1⟩

/-- C14, the code at the failing input: level 5 holds actor 1, dormant on the
connection, and actor 2, which is not; the gather appends the whole shared
list, so the dormant actor 1 is in the emitted list. -/
theorem gather_emits_dormant_actor :
    dormantOnConnection [(1, ⟨true⟩)] 1 = true ∧
      (GatherActorListsForConnection [(5, [1, 2])] ⟨[5]⟩
        ⟨[(1, ⟨true⟩)], []⟩).2.OutGatheredReplicationLists = [[1, 2]] ∧
      dormantOnConnection (GatherActorListsForConnection [(5, [1, 2])] ⟨[5]⟩
        ⟨[(1, ⟨true⟩)], []⟩).2.ActorInfoMap 1 = true := by
  decide

/-- C15, the code at the failing input: the replicated class `OwnerOnlyActor`
is relevant to its owner only and derives from the base actor class; the
classification loop gives it no rule, no ancestor has one, and the checked
lookup of the default loop fails, while `GetMappingPolicy` on the same map
falls back to `NotRouted`. -/
theorem default_loop_lookup_fails :
    InitGlobalActorClassSettings exactOps sampleEnv (sampleClasses ++ [sampleOwnerOnlyRoot])
        ⟨30, 1⟩ sampleFreshGraph = none ∧
      (TClassMap.Get ((sampleClasses ++ [sampleOwnerOnlyRoot]).foldl classifyStep
        ({ sampleFreshGraph with
            ClassRepPolicies := seedPolicies sampleEnv sampleFreshGraph.ClassRepPolicies },
          [])).1.ClassRepPolicies sampleOwnerOnlyRoot).1 = none ∧
      (GetMappingPolicy ((sampleClasses ++ [sampleOwnerOnlyRoot]).foldl classifyStep
        ({ sampleFreshGraph with
            ClassRepPolicies := seedPolicies sampleEnv sampleFreshGraph.ClassRepPolicies },
          [])).1.ClassRepPolicies sampleOwnerOnlyRoot).1 = EClassRepPolicy.NotRouted := by
  decide

/-- Witness for C12: the reset of a graph with one active and one pending
connection, the base class call leaving the members as they are. -/
theorem reset_clears_levels_witness :
    (UMyReplicationGraph.ResetGameWorldState id
        sampleGraphConnected).AlwaysRelevantStreamingLevelActors = [] ∧
      (UMyReplicationGraph.ResetGameWorldState id sampleGraphConnected).Connections =
        [⟨[.Other 1, .AlwaysRelevant_ForConnection ⟨[]⟩]⟩] ∧
      (UMyReplicationGraph.ResetGameWorldState id sampleGraphConnected).PendingConnections =
        [⟨[.AlwaysRelevant_ForConnection ⟨[]⟩]⟩] :=
  ⟨(reset_clears_levels id sampleGraphConnected).1, by decide, by decide⟩

end ReplicationGraph
